import Mathlib

/-! # INDI driver helpers and the Pegasus NYX-101 mount driver

A shallow embedding of

* `IUUpdateNumber` / `IUUpdateSwitch`, the `IDSet*` emitters, `dispatch` and
  the table `roCheck` with the `IDDef*` functions that fill it, of
  `src/libindi/indidriver.c`;
* the status decoder, the track-state transition, the motor classifier, the
  poll cycle `ReadScopeStatus`, the `MERIDIAN_LIMIT` block of `ISNewNumber`,
  `setMountType`, the exchange `sendCommand` and the detection done in
  `updateProperties`, of `src/drivers/telescope/lx200_pegasus_nyx101.cpp`.

Pointers into a vector's element array are modelled as indices into a list.
C strings are modelled as `String`.  The `double` values of numeric elements
are modelled by an arbitrary type carrying a decidable `<`, with no order law
assumed, so that every statement proved here only depends on the outcome of
the comparisons the code performs; the type `Double` is an instance with a
NaN, used for concrete inputs.
-/

namespace INDI

/-! ## Data model (indiapi.h) -/

/-- Property state, `IPState`. -/
inductive IPState where
  | IPS_IDLE
  | IPS_OK
  | IPS_BUSY
  | IPS_ALERT
  deriving DecidableEq, Repr

/-- Switch state, `ISState`. -/
inductive ISState where
  | ISS_OFF
  | ISS_ON
  deriving DecidableEq, Repr

/-- Switch vector rule, `ISRule`. -/
inductive ISRule where
  | ISR_1OFMANY
  | ISR_ATMOST1
  | ISR_NOFMANY
  deriving DecidableEq, Repr

/-- One numeric element, `INumber`. -/
structure INumber (α : Type) where
  name : String
  min : α
  max : α
  step : α
  value : α
  deriving DecidableEq, Repr

/-- Numeric vector, `INumberVectorProperty` (`np`/`nnp` form the list `np`). -/
structure INumberVectorProperty (α : Type) where
  device : String
  name : String
  np : List (INumber α)
  s : IPState
  deriving DecidableEq, Repr

/-- One switch element, `ISwitch`. -/
structure ISwitch where
  name : String
  s : ISState
  deriving DecidableEq, Repr

/-- Switch vector, `ISwitchVectorProperty` (`sp`/`nsp` form the list `sp`). -/
structure ISwitchVectorProperty where
  device : String
  name : String
  r : ISRule
  sp : List ISwitch
  s : IPState
  deriving DecidableEq, Repr

/-- The `setNumberVector` record printed by `IDSetNumber`: device, name, state,
message and one `oneNumber` entry per element (timeout and timestamp are not
modelled). -/
structure SetNumberVector (α : Type) where
  device : String
  name : String
  state : IPState
  message : Option String
  oneNumber : List (String × α)
  deriving DecidableEq, Repr

/-- The `setSwitchVector` record printed by `IDSetSwitch`. -/
structure SetSwitchVector where
  device : String
  name : String
  state : IPState
  message : Option String
  oneSwitch : List (String × ISState)
  deriving DecidableEq, Repr

/-- What `IDSetNumber (nvp, fmt, ...)` writes for the vector as it is at the
time of the call. -/
def IDSetNumber {α : Type} (nvp : INumberVectorProperty α) (msg : Option String) :
    SetNumberVector α :=
  { device := nvp.device, name := nvp.name, state := nvp.s, message := msg,
    oneNumber := nvp.np.map (fun np => (np.name, np.value)) }

/-- What `IDSetSwitch (svp, fmt, ...)` writes for the vector as it is at the
time of the call. -/
def IDSetSwitch (svp : ISwitchVectorProperty) (msg : Option String) : SetSwitchVector :=
  { device := svp.device, name := svp.name, state := svp.s, message := msg,
    oneSwitch := svp.sp.map (fun sp => (sp.name, sp.s)) }

/-! ## Numeric vectors -/

/-- Index of the first element of `l` whose name is `name` (the `strcmp` scan
shared by the `IUFind*` helpers). -/
def findName {ε : Type} (nm : ε → String) : List ε → String → Option Nat
  | [], _ => none
  | x :: xs, name =>
    if nm x = name then some 0 else (findName nm xs name).map (· + 1)

/-- Modelled from the spec: `IUFindNumber` is declared in indidevapi.h and its
body is not part of the sources at hand; the target element is identified by
name, and the pointer returned is the first element carrying that name (null,
here `none`, when there is none). -/
def IUFindNumber {α : Type} (nvp : INumberVectorProperty α) (name : String) : Option Nat :=
  findName (fun np : INumber α => np.name) nvp.np name

/-- Assignment `np->value = v` through the pointer `i`. -/
def setValueAt {α : Type} : List (INumber α) → Nat → α → List (INumber α)
  | [], _, _ => []
  | np :: rest, 0, v => { np with value := v } :: rest
  | np :: rest, i + 1, v => np :: setValueAt rest i v

/-- Outcome of the first loop of `IUUpdateNumber` at one request entry: the
state and message of the failure, if the entry fails. -/
def checkEntry {α : Type} [LT α] [DecidableRel (fun a b : α => a < b)] (g : α → String)
    (nvp : INumberVectorProperty α) (e : String × α) : Option (IPState × String) :=
  match IUFindNumber nvp e.1 with
  | none =>
    some (IPState.IPS_IDLE,
      "Error: " ++ e.1 ++ " is not a member of " ++ nvp.name ++ " property.")
  | some i =>
    match nvp.np[i]? with
    | none => none
    | some np =>
      if e.2 < np.min ∨ np.max < e.2 then
        some (IPState.IPS_ALERT,
          "Error: Invalid range for " ++ np.name ++ ". Valid range is from " ++ g np.min
            ++ " to " ++ g np.max ++ ". Requested value is " ++ g e.2)
      else none

/-- The first loop of `IUUpdateNumber`: the first failing entry, if any. -/
def checkLoop {α : Type} [LT α] [DecidableRel (fun a b : α => a < b)] (g : α → String)
    (nvp : INumberVectorProperty α) : List (String × α) → Option (IPState × String)
  | [] => none
  | e :: rest =>
    match checkEntry g nvp e with
    | some err => some err
    | none => checkLoop g nvp rest

/-- The second loop of `IUUpdateNumber`: every entry is written through the
pointer found for its name. -/
def commitLoop {α : Type} (nvp : INumberVectorProperty α) :
    List (String × α) → INumberVectorProperty α
  | [] => nvp
  | e :: rest =>
    match IUFindNumber nvp e.1 with
    | none => commitLoop nvp rest
    | some i => commitLoop { nvp with np := setValueAt nvp.np i e.2 } rest

/-- Result of an `IUUpdate*` call: return code, the vector afterwards, and the
records written to the client. -/
structure Update (V M : Type) where
  rc : Int
  vec : V
  out : List M

/-- The call `IUUpdateNumber (nvp, values, names, n)`; the request is the list of the
`n` pairs `(names[i], values[i])`, and `g` renders a `double` under `%g`. -/
def IUUpdateNumber {α : Type} [LT α] [DecidableRel (fun a b : α => a < b)] (g : α → String)
    (nvp : INumberVectorProperty α) (req : List (String × α)) :
    Update (INumberVectorProperty α) (SetNumberVector α) :=
  match checkLoop g nvp req with
  | some (st, msg) =>
    let nvp1 := { nvp with s := st }
    { rc := -1, vec := nvp1, out := [IDSetNumber nvp1 (some msg)] }
  | none => { rc := 0, vec := commitLoop nvp req, out := [] }

/-- A request entry names no element of the vector. -/
def unknownName {α : Type} (nvp : INumberVectorProperty α) (e : String × α) : Prop :=
  e.1 ∉ nvp.np.map (fun np => np.name)

/-- A request entry names an element and its value is below that element's
`min` or above its `max`. -/
def rangeViolation {α : Type} [LT α] (nvp : INumberVectorProperty α) (e : String × α) : Prop :=
  ∃ i np, IUFindNumber nvp e.1 = some i ∧ nvp.np[i]? = some np ∧ (e.2 < np.min ∨ np.max < e.2)

/-! ## Switch vectors -/

/-- Modelled from the spec: `IUFindSwitch` is declared in indidevapi.h and its
body is not part of the sources at hand; the switch is identified by name, and
the pointer returned is the first switch carrying that name (null, here
`none`, when there is none). -/
def IUFindSwitch (svp : ISwitchVectorProperty) (name : String) : Option Nat :=
  findName (fun sp : ISwitch => sp.name) svp.sp name

/-- Index of the first switch that is ON. -/
def findOn : List ISwitch → Option Nat
  | [] => none
  | sp :: rest => if sp.s = ISState.ISS_ON then some 0 else (findOn rest).map (· + 1)

/-- Modelled from the spec: `IUFindOnSwitch` is declared in indidevapi.h and
its body is not part of the sources at hand; it yields the previously-on
switch, the first switch of the vector that is ON (null when none is). -/
def IUFindOnSwitch (svp : ISwitchVectorProperty) : Option Nat :=
  findOn svp.sp

/-- Modelled from the spec: `IUResetSwitch` is declared in indidevapi.h and its
body is not part of the sources at hand; it turns every switch of the vector
OFF. -/
def IUResetSwitch (svp : ISwitchVectorProperty) : ISwitchVectorProperty :=
  { svp with sp := svp.sp.map (fun sp => { sp with s := ISState.ISS_OFF }) }

/-- Assignment `sp->s = st` through the pointer `i`. -/
def setStateAt : List ISwitch → Nat → ISState → List ISwitch
  | [], _, _ => []
  | sp :: rest, 0, st => { sp with s := st } :: rest
  | sp :: rest, i + 1, st => sp :: setStateAt rest i st

/-- The assignment loop of `IUUpdateSwitch`: either every entry is applied, or
the loop leaves at the first name that is not a member, with the vector as the
earlier entries left it. -/
def assignLoop (svp : ISwitchVectorProperty) :
    List (String × ISState) → Except (String × ISwitchVectorProperty) ISwitchVectorProperty
  | [] => Except.ok svp
  | e :: rest =>
    match IUFindSwitch svp e.1 with
    | none => Except.error (e.1, svp)
    | some i => assignLoop { svp with sp := setStateAt svp.sp i e.2 } rest

/-- The counter `t_count` of the consistency check: the number of switches ON. -/
def countOn (sp : List ISwitch) : Nat :=
  sp.countP (fun x => decide (x.s = ISState.ISS_ON))

/-- The content of the buffer `sn` after the first block of `IUUpdateSwitch`:
the name of the switch that is ON, or what the buffer held before (`sn0`, it
is not initialised) when the rule is not one-of-many or no switch is ON.  The
name field is a `char[MAXINDINAME]`, which `strncpy` copies whole. -/
def storedOnName (sn0 : String) (svp : ISwitchVectorProperty) : String :=
  if svp.r = ISRule.ISR_1OFMANY then
    match IUFindOnSwitch svp with
    | some i =>
      match svp.sp[i]? with
      | some sp => sp.name
      | none => sn0
    | none => sn0
  else sn0

/-- The revert block of `IUUpdateSwitch`: reset, then turn ON the switch named
by `sn` if there is one. -/
def revertTo (sn : String) (svp : ISwitchVectorProperty) : ISwitchVectorProperty :=
  let svp1 := IUResetSwitch svp
  match IUFindSwitch svp1 sn with
  | some i => { svp1 with sp := setStateAt svp1.sp i ISState.ISS_ON }
  | none => svp1

/-- The call `IUUpdateSwitch (svp, states, names, n)`; the request is the list of the
`n` pairs `(names[i], states[i])`, and `sn0` is the content of the local
buffer `sn` on entry. -/
def IUUpdateSwitch (sn0 : String) (svp : ISwitchVectorProperty)
    (req : List (String × ISState)) : Update ISwitchVectorProperty SetSwitchVector :=
  let sn := storedOnName sn0 svp
  let svp1 := if svp.r = ISRule.ISR_1OFMANY then IUResetSwitch svp else svp
  match assignLoop svp1 req with
  | Except.error (nm, svp2) =>
    let svp3 := { svp2 with s := IPState.IPS_IDLE }
    { rc := -1, vec := svp3,
      out := [IDSetSwitch svp3
        (some ("Error: " ++ nm ++ " is not a member of " ++ svp3.name ++ " property."))] }
  | Except.ok svp2 =>
    if svp2.r = ISRule.ISR_1OFMANY ∧ countOn svp2.sp ≠ 1 then
      let svp3 := { revertTo sn svp2 with s := IPState.IPS_IDLE }
      { rc := -1, vec := svp3,
        out := [IDSetSwitch svp3
          (some ("Error: invalid state switch for property " ++ svp3.name ++ ". "
            ++ (if countOn svp2.sp = 0 then "No switch is on" else "Too many switches are on")
            ++ "."))] }
    else { rc := 0, vec := svp2, out := [] }

/-- The state the request assigns last to the name `name`, if it names it. -/
def lastAssign : List (String × ISState) → String → Option ISState
  | [], _ => none
  | e :: rest, name =>
    match lastAssign rest name with
    | some st => some st
    | none => if e.1 = name then some e.2 else none

/-! ## Property registry and `dispatch` -/

/-- Property permission, `IPerm`. -/
inductive IPerm where
  | IP_RO
  | IP_WO
  | IP_RW
  deriving DecidableEq, Repr

/-- One entry of the table `roCheck`, `ROSC`. -/
structure ROSC where
  propName : String
  perm : IPerm
  deriving DecidableEq, Repr

/-- The function `isPropDefined`: 1 if the name is in the table `roCheck`
(given as the list of its `nroCheck` entries), 0 otherwise. -/
def isPropDefined : List ROSC → String → Int
  | [], _ => 0
  | sc :: rest, property_name =>
    if property_name = sc.propName then 1 else isPropDefined rest property_name

/-- The loop "ensure property is not RO" of `dispatch`: true when it returns
-1, that is when the first entry of the name has permission `IP_RO`. -/
def isReadOnly : List ROSC → String → Bool
  | [], _ => false
  | sc :: rest, name =>
    if sc.propName = name then decide (sc.perm = IPerm.IP_RO) else isReadOnly rest name

/-- The permission the table records for a name: that of its first entry. -/
def registeredPerm (roCheck : List ROSC) (name : String) : Option IPerm :=
  (roCheck.find? (fun sc => decide (sc.propName = name))).map (fun sc => sc.perm)

/-- A child element of an inbound message: tag, attributes and character
data. -/
structure XMLChild where
  tag : String
  att : List (String × String)
  pcdata : String
  deriving DecidableEq, Repr

/-- An inbound message: tag, attributes and child elements. -/
structure XMLEle where
  tag : String
  att : List (String × String)
  el : List XMLChild
  deriving DecidableEq, Repr

/-- Modelled from the spec: the XML primitives (lilxml) are a library that is
not part of the sources at hand; an attribute is identified by its name, and
`findXMLAtt` followed by `valuXMLAtt` yields the value of the first attribute
of that name, if any. -/
def findXMLAtt (att : List (String × String)) (name : String) : Option String :=
  (att.find? (fun a => decide (a.1 = name))).map (fun a => a.2)

/-- The functions `dispatch` calls whose bodies are not part of the sources at
hand: `crackDN` yields device and name, or the text it writes to `msg` when it
fails; `f_scansexa` parses a number; `from64tobits_fast` yields the decoded
length and bits; `atoi` parses an integer; `versionTooNew` is the test
`atof (v) > INDIV`. -/
structure Helpers (α : Type) where
  crackDN : XMLEle → Except String (String × String)
  f_scansexa : String → Option α
  from64tobits_fast : String → Int × String
  atoi : String → Int
  versionTooNew : String → Bool

/-- One member handed to `ISNewBLOB`. -/
structure BLOBMember where
  name : String
  format : String
  size : Int
  blobsize : Int
  blob : String
  deriving DecidableEq, Repr

/-- The driver entry points `dispatch` calls, with their arguments. -/
inductive DriverCall (α : Type) where
  | ISNewNumber (dev name : String) (members : List (String × α))
  | ISNewSwitch (dev name : String) (members : List (String × ISState))
  | ISNewText (dev name : String) (members : List (String × String))
  | ISNewBLOB (dev name : String) (members : List BLOBMember)
  | ISGetProperties (dev : Option String)
  | ISSnoopDevice (root : XMLEle)
  deriving DecidableEq

/-- What a call of `dispatch` does: the value returned, the text written to
`msg` (`none` when `msg` is not written), the driver entry points called, the
`IDMessage` records sent (device and text), and whether the process exits. -/
structure Dispatched (α : Type) where
  rc : Int
  msg : Option String
  calls : List (DriverCall α)
  messages : List (String × String)
  exits : Bool

/-- A return from `dispatch` with nothing called and nothing sent. -/
def Dispatched.ret {α : Type} (rc : Int) (msg : Option String) : Dispatched α :=
  { rc := rc, msg := msg, calls := [], messages := [], exits := false }

/-- The loop over the `oneNumber` children: the name/value pairs kept, and the
texts of the `IDMessage` calls for values that do not parse. -/
def numberMembers {α : Type} (h : Helpers α) (name : String) :
    List XMLChild → List (String × α) × List String
  | [] => ([], [])
  | ep :: rest =>
    let r := numberMembers h name rest
    if ep.tag = "oneNumber" then
      match findXMLAtt ep.att "name" with
      | none => r
      | some na =>
        match h.f_scansexa ep.pcdata with
        | none => (r.1, (name ++ ": Bad format " ++ ep.pcdata) :: r.2)
        | some v => ((na, v) :: r.1, r.2)
    else r

/-- The loop over the `oneSwitch` children. -/
def switchMembers (name : String) : List XMLChild → List (String × ISState) × List String
  | [] => ([], [])
  | ep :: rest =>
    let r := switchMembers name rest
    if ep.tag = "oneSwitch" then
      match findXMLAtt ep.att "name" with
      | none => r
      | some na =>
        if ep.pcdata = "On" then ((na, ISState.ISS_ON) :: r.1, r.2)
        else if ep.pcdata = "Off" then ((na, ISState.ISS_OFF) :: r.1, r.2)
        else (r.1, (name ++ ": must be On or Off: " ++ ep.pcdata) :: r.2)
    else r

/-- The loop over the `oneText` children. -/
def textMembers : List XMLChild → List (String × String)
  | [] => []
  | ep :: rest =>
    if ep.tag = "oneText" then
      match findXMLAtt ep.att "name" with
      | none => textMembers rest
      | some na => (na, ep.pcdata) :: textMembers rest
    else textMembers rest

/-- The loop over the `oneBLOB` children. -/
def blobMembers {α : Type} (h : Helpers α) : List XMLChild → List BLOBMember
  | [] => []
  | ep :: rest =>
    if ep.tag = "oneBLOB" then
      match findXMLAtt ep.att "name", findXMLAtt ep.att "format", findXMLAtt ep.att "size" with
      | some na, some fa, some sa =>
        { name := na, format := fa, size := h.atoi sa,
          blobsize := (h.from64tobits_fast ep.pcdata).1,
          blob := (h.from64tobits_fast ep.pcdata).2 } :: blobMembers h rest
      | _, _, _ => blobMembers h rest
    else blobMembers h rest

/-- The tags `dispatch` passes on to `ISSnoopDevice`. -/
def snoopTags : List String :=
  ["setNumberVector", "setTextVector", "setLightVector", "setSwitchVector", "setBLOBVector",
   "defNumberVector", "defTextVector", "defLightVector", "defSwitchVector", "defBLOBVector",
   "message", "delProperty"]

/-- The function `dispatch (root, msg)` on the table `roCheck`. -/
def dispatch {α : Type} (h : Helpers α) (roCheck : List ROSC) (root : XMLEle) :
    Dispatched α :=
  if root.tag = "newNumberVector" then
    match h.crackDN root with
    | Except.error m => Dispatched.ret (-1) (some m)
    | Except.ok (dev, name) =>
      if isPropDefined roCheck name = 0 then Dispatched.ret (-1) none
      else if isReadOnly roCheck name then Dispatched.ret (-1) none
      else
        let r := numberMembers h name root.el
        if 0 < r.1.length then
          { rc := 0, msg := none, calls := [DriverCall.ISNewNumber dev name r.1],
            messages := r.2.map (fun t => (dev, t)), exits := false }
        else
          { rc := 0, msg := none, calls := [],
            messages := (r.2 ++ [name ++ ": newNumberVector with no valid members"]).map
              (fun t => (dev, t)),
            exits := false }
  else if root.tag = "newSwitchVector" then
    match h.crackDN root with
    | Except.error m => Dispatched.ret (-1) (some m)
    | Except.ok (dev, name) =>
      if isPropDefined roCheck name = 0 then Dispatched.ret (-1) none
      else if isReadOnly roCheck name then Dispatched.ret (-1) none
      else
        let r := switchMembers name root.el
        if 0 < r.1.length then
          { rc := 0, msg := none, calls := [DriverCall.ISNewSwitch dev name r.1],
            messages := r.2.map (fun t => (dev, t)), exits := false }
        else
          { rc := 0, msg := none, calls := [],
            messages := (r.2 ++ [name ++ ": newSwitchVector with no valid members"]).map
              (fun t => (dev, t)),
            exits := false }
  else if root.tag = "newTextVector" then
    match h.crackDN root with
    | Except.error m => Dispatched.ret (-1) (some m)
    | Except.ok (dev, name) =>
      if isPropDefined roCheck name = 0 then Dispatched.ret (-1) none
      else if isReadOnly roCheck name then Dispatched.ret (-1) none
      else
        let r := textMembers root.el
        if 0 < r.length then
          { rc := 0, msg := none, calls := [DriverCall.ISNewText dev name r],
            messages := [], exits := false }
        else
          { rc := 0, msg := none, calls := [],
            messages := [(dev, name ++ ": set with no valid members")], exits := false }
  else if root.tag = "newBLOBVector" then
    match h.crackDN root with
    | Except.error m => Dispatched.ret (-1) (some m)
    | Except.ok (dev, name) =>
      if isPropDefined roCheck name = 0 then Dispatched.ret (-1) none
      else
        let r := blobMembers h root.el
        if 0 < r.length then
          { rc := 0, msg := none, calls := [DriverCall.ISNewBLOB dev name r],
            messages := [], exits := false }
        else
          { rc := 0, msg := none, calls := [],
            messages := [(dev, name ++ ": newBLOBVector with no valid members")],
            exits := false }
  else if root.tag = "getProperties" then
    match findXMLAtt root.att "version" with
    | none => { rc := 0, msg := none, calls := [], messages := [], exits := true }
    | some v =>
      if h.versionTooNew v then
        { rc := 0, msg := none, calls := [], messages := [], exits := true }
      else
        { rc := 0, msg := none,
          calls := [DriverCall.ISGetProperties (findXMLAtt root.att "device")],
          messages := [], exits := false }
  else if root.tag ∈ snoopTags then
    { rc := 0, msg := none, calls := [DriverCall.ISSnoopDevice root], messages := [],
      exits := false }
  else Dispatched.ret 1 (some ("Unknown command: " ++ root.tag))

/-- What `clientMsgCB` writes to the error stream after `dispatch` returns:
the line "dispatch error" with the content of `msg` when the value returned is
negative (`msg0` is what `msg` held before the call), and nothing otherwise. -/
def clientMsgCB_report {α : Type} (me msg0 : String) (d : Dispatched α) : List String :=
  if d.rc < 0 then [me ++ " dispatch error: " ++ d.msg.getD msg0] else []

/-- The four tags of inbound update requests. -/
def newVectorTags : List String :=
  ["newNumberVector", "newSwitchVector", "newTextVector", "newBLOBVector"]

/-- The value the request assigns last to the name `name`, if it names it. -/
def lastValue {α : Type} : List (String × α) → String → Option α
  | [], _ => none
  | e :: rest, name =>
    match lastValue rest name with
    | some v => some v
    | none => if e.1 = name then some e.2 else none

/-! ### The registration done by `IDDefText`, `IDDefNumber`, `IDDefSwitch`, `IDDefBLOB` -/

/-- The block "Add this property to insure proper sanity check" shared by the
four functions: a new entry is appended to `roCheck` unless `isPropDefined`
finds the name. -/
def registerProperty (roCheck : List ROSC) (name : String) (p : IPerm) : List ROSC :=
  if isPropDefined roCheck name = 0 then roCheck ++ [{ propName := name, perm := p }]
  else roCheck

/-- The effect of `IDDefText (tvp, fmt, ...)` on the table `roCheck`, for
`tvp->name` and `tvp->p` (the record printed is not modelled). -/
def IDDefText (roCheck : List ROSC) (name : String) (p : IPerm) : List ROSC :=
  registerProperty roCheck name p

/-- The effect of `IDDefNumber (n, fmt, ...)` on the table `roCheck`. -/
def IDDefNumber (roCheck : List ROSC) (name : String) (p : IPerm) : List ROSC :=
  registerProperty roCheck name p

/-- The effect of `IDDefSwitch (s, fmt, ...)` on the table `roCheck`. -/
def IDDefSwitch (roCheck : List ROSC) (name : String) (p : IPerm) : List ROSC :=
  registerProperty roCheck name p

/-- The effect of `IDDefBLOB (b, fmt, ...)` on the table `roCheck`. -/
def IDDefBLOB (roCheck : List ROSC) (name : String) (p : IPerm) : List ROSC :=
  registerProperty roCheck name p

/-- The effect of `IDDelete (dev, name, fmt, ...)` on the table `roCheck`: the
function prints a `delProperty` record and does not touch the table. -/
def IDDelete (roCheck : List ROSC) (_dev : String) (_name : Option String) : List ROSC :=
  roCheck

/-- A call that defines or deletes a property. -/
inductive RegistryCall where
  | IDDefText (name : String) (p : IPerm)
  | IDDefNumber (name : String) (p : IPerm)
  | IDDefSwitch (name : String) (p : IPerm)
  | IDDefBLOB (name : String) (p : IPerm)
  | IDDelete (dev : String) (name : Option String)
  deriving DecidableEq, Repr

/-- The table after one call. -/
def RegistryCall.run (roCheck : List ROSC) : RegistryCall → List ROSC
  | RegistryCall.IDDefText name p => INDI.IDDefText roCheck name p
  | RegistryCall.IDDefNumber name p => INDI.IDDefNumber roCheck name p
  | RegistryCall.IDDefSwitch name p => INDI.IDDefSwitch roCheck name p
  | RegistryCall.IDDefBLOB name p => INDI.IDDefBLOB roCheck name p
  | RegistryCall.IDDelete dev name => INDI.IDDelete roCheck dev name

/-- The table after a sequence of calls, starting from `roCheck`. -/
def runCalls (roCheck : List ROSC) (calls : List RegistryCall) : List ROSC :=
  calls.foldl RegistryCall.run roCheck

/-- The name and permission a call defines, if it is a definition. -/
def RegistryCall.defines : RegistryCall → Option (String × IPerm)
  | RegistryCall.IDDefText name p => some (name, p)
  | RegistryCall.IDDefNumber name p => some (name, p)
  | RegistryCall.IDDefSwitch name p => some (name, p)
  | RegistryCall.IDDefBLOB name p => some (name, p)
  | RegistryCall.IDDelete _ _ => none

/-- The permission given at the first definition of `name` in a sequence of
calls. -/
def firstDefinition (calls : List RegistryCall) (name : String) : Option IPerm :=
  ((calls.filterMap RegistryCall.defines).find? (fun d => decide (d.1 = name))).map
    (fun d => d.2)

/-! ### Values of type `double` -/

/-- A value of type `double` as the comparisons of `IUUpdateNumber` see it: an
ordinary number (integers are enough for the samples) or NaN, with which every
comparison is false. -/
inductive Double where
  | num (x : Int)
  | NaN
  deriving DecidableEq, Repr

/-- The comparison `a < b` of two values of type `double`. -/
def Double.lt : Double → Double → Bool
  | Double.num a, Double.num b => decide (a < b)
  | _, _ => false

/-- The comparison `a <= b` of two values of type `double`. -/
def Double.le : Double → Double → Bool
  | Double.num a, Double.num b => decide (a ≤ b)
  | _, _ => false

instance : LT Double := ⟨fun a b => Double.lt a b = true⟩

instance : LE Double := ⟨fun a b => Double.le a b = true⟩

instance : DecidableRel (fun a b : Double => a < b) :=
  fun a b => inferInstanceAs (Decidable (Double.lt a b = true))

instance : DecidableRel (fun a b : Double => a ≤ b) :=
  fun a b => inferInstanceAs (Decidable (Double.le a b = true))

/-- The vector `sampleNumbers` with values of type `double`. -/
def sampleDoubles : INumberVectorProperty Double :=
  { device := "NYX", name := "ELEVATION_LIMIT", s := IPState.IPS_OK,
    np := [{ name := "ELEVATION_OVERHEAD", min := Double.num 60, max := Double.num 90,
             step := Double.num 1, value := Double.num 90 },
           { name := "ELEVATION_HORIZON", min := Double.num (-30), max := Double.num 0,
             step := Double.num 1, value := Double.num 0 }] }

/-- An update request for the read-write `MERIDIAN_LIMIT` whose only member
carries a value that does not parse. -/
def sampleBadRequest : XMLEle :=
  { tag := "newNumberVector", att := [("device", "Pegasus NYX-101"), ("name", "MERIDIAN_LIMIT")],
    el := [{ tag := "oneNumber", att := [("name", "VALUE")], pcdata := "ten" }] }

/-! ### Sample vectors -/

/-- A numeric vector with two bounded elements. -/
def sampleNumbers : INumberVectorProperty Int :=
  { device := "NYX", name := "ELEVATION_LIMIT", s := IPState.IPS_OK,
    np := [{ name := "ELEVATION_OVERHEAD", min := 60, max := 90, step := 1, value := 90 },
           { name := "ELEVATION_HORIZON", min := -30, max := 0, step := 1, value := 0 }] }

/-- A one-of-many group with its second switch ON. -/
def sampleSwitches : ISwitchVectorProperty :=
  { device := "NYX", name := "GUIDE_RATE", r := ISRule.ISR_1OFMANY, s := IPState.IPS_OK,
    sp := [{ name := "0.25", s := ISState.ISS_OFF }, { name := "0.50", s := ISState.ISS_ON },
           { name := "1.00", s := ISState.ISS_OFF }] }

/-! ### Sample registry and requests -/

/-- Helpers for the samples: device and name are the attributes of those
names, and the only number that parses is "10". -/
def sampleHelpers : Helpers Int :=
  { crackDN := fun root =>
      match findXMLAtt root.att "device", findXMLAtt root.att "name" with
      | some dev, some name => Except.ok (dev, name)
      | _, _ => Except.error "device or name attribute missing",
    f_scansexa := fun s => if s = "10" then some 10 else none,
    from64tobits_fast := fun s => (0, s),
    atoi := fun _ => 0,
    versionTooNew := fun _ => false }

/-- A table with a read-only and a read-write property, as the driver defines
them. -/
def sampleRegistry : List ROSC :=
  [{ propName := "HORIZONTAL_COORD", perm := IPerm.IP_RO },
   { propName := "MERIDIAN_LIMIT", perm := IPerm.IP_RW }]

/-- An update request with one member `VALUE` = "10". -/
def sampleRequest (tag name : String) : XMLEle :=
  { tag := tag, att := [("device", "Pegasus NYX-101"), ("name", name)],
    el := [{ tag := "oneNumber", att := [("name", "VALUE")], pcdata := "10" }] }

/-- A table as `IDDefBLOB` leaves it for a read-only BLOB property. -/
def sampleBlobRegistry : List ROSC :=
  IDDefBLOB [] "CCD1" IPerm.IP_RO

/-- An inbound `newBLOBVector` for `CCD1` with one complete member. -/
def sampleBlobRequest : XMLEle :=
  { tag := "newBLOBVector", att := [("device", "Pegasus NYX-101"), ("name", "CCD1")],
    el := [{ tag := "oneBLOB", att := [("name", "CCD1"), ("format", ".fits"), ("size", "3")],
             pcdata := "QUJD" }] }

end INDI

namespace LX200NYX101

open INDI

/-! ## Motor-state classifier -/

/-- The text `stationary`. -/
def stationary : String := "Stationary"

/-- The text `moving`. -/
def moving : String := "Moving"

/-- The text `fault`. -/
def fault : String := "FAULT"

/-- One call `getline (StatusString, segment, ',')` on the unread part of the
stream: it fails (`none`) when nothing is left, and otherwise yields the
characters up to the next comma or the end, and what is left after that
comma. -/
def getline : List Char → Option (List Char × List Char)
  | [] => none
  | c :: cs =>
    if c = ',' then some ([], cs)
    else
      match getline cs with
      | none => some ([c], [])
      | some (seg, rest) => some (c :: seg, rest)

/-- The loop `while (getline (...)) seglist.push_back (segment)`, bounded by
`fuel` iterations. -/
def readSegments : Nat → List Char → List String
  | 0, _ => []
  | fuel + 1, stream =>
    match getline stream with
    | none => []
    | some (seg, rest) => String.mk seg :: readSegments fuel rest

/-- The vector `seglist` of `GetMotorState` for the C string `status`; every
successful `getline` consumes a character, so `status.length + 1` iterations
reach the failing `getline` that ends the loop. -/
def seglist (status : String) : List String :=
  readSegments (status.length + 1) status.data

/-- The body of `GetMotorState` after the vector `seglist` is built: the text
left in `s`, or `none` when an element `seglist[i]` is read at an index that
is not below `seglist.size ()`. -/
def motorStateOf (seg : List String) : Option String :=
  (seg[0]?).bind fun t0 =>
  let s := if t0 = "ST" then stationary else if t0 ≠ "ST" then moving else fault
  (seg[1]?).bind fun t1 =>
  if t1 = "OA" then some fault else
  (seg[2]?).bind fun t2 =>
  if t2 = "OB" then some fault else
  (seg[3]?).bind fun t3 =>
  if t3 = "GA" then some fault else
  (seg[4]?).bind fun t4 =>
  if t4 = "GB" then some fault else
  (seg[5]?).bind fun t5 =>
  if t5 = "OT" then some fault else
  (seg[6]?).bind fun t6 =>
  if t6 = "PW" then some fault else
  (seg[7]?).bind fun t7 =>
  if t7 = "GF" then some fault else some s

/-- The call `GetMotorState (s, status)`; `status` is the C string, the characters
before the first NUL. -/
def GetMotorState (status : String) : Option String :=
  motorStateOf (seglist status)

/-! ## Status decoder -/

/-- Pier side, `TelescopePierSide`. -/
inductive TelescopePierSide where
  | PIER_UNKNOWN
  | PIER_WEST
  | PIER_EAST
  deriving DecidableEq, Repr

/-- Tracking mode, `NYXTelescopeTrackMode`. -/
inductive NYXTelescopeTrackMode where
  | TRACK_SIDEREAL
  | TRACK_SOLAR
  | TRACK_LUNAR
  | TRACK_KING
  deriving DecidableEq, Repr

/-- The locals of `ReadScopeStatus` that the scan of the `:GU#` response sets
(the build without `DEBUG_NYX`). -/
structure StatusFlags where
  _IsTracking : Bool
  _IsSlewCompleted : Bool
  _IsParked : Bool
  _DoesRefractionComp : Bool
  _PierSide : TelescopePierSide
  _TrackingMode : NYXTelescopeTrackMode
  deriving DecidableEq, Repr

/-- The initial values of the locals. -/
def initialFlags : StatusFlags :=
  { _IsTracking := true, _IsSlewCompleted := false, _IsParked := false,
    _DoesRefractionComp := false, _PierSide := TelescopePierSide.PIER_UNKNOWN,
    _TrackingMode := NYXTelescopeTrackMode.TRACK_SIDEREAL }

/-- One `case` of the `switch (status[index++])`, for a character other than
the terminator. -/
def scanChar (c : Char) (f : StatusFlags) : StatusFlags :=
  if c = 'n' then { f with _IsTracking := false }
  else if c = 'N' then { f with _IsSlewCompleted := true }
  else if c = 'p' then { f with _IsParked := false }
  else if c = 'P' then { f with _IsParked := true }
  else if c = 'I' then f
  else if c = 'H' then f
  else if c = '(' then { f with _TrackingMode := NYXTelescopeTrackMode.TRACK_LUNAR }
  else if c = 'O' then { f with _TrackingMode := NYXTelescopeTrackMode.TRACK_SOLAR }
  else if c = 'k' then { f with _TrackingMode := NYXTelescopeTrackMode.TRACK_KING }
  else if c = 'A' then f
  else if c = 'E' then f
  else if c = 'T' then { f with _PierSide := TelescopePierSide.PIER_EAST }
  else if c = 'W' then { f with _PierSide := TelescopePierSide.PIER_WEST }
  else if c = 'r' then { f with _DoesRefractionComp := true }
  else if c = 'w' then f
  else if c = 'u' then f
  else if c = 'F' then f
  else if c = 'h' then f
  else f

/-- The loop `while (true) switch (status[index++])` over the part of the
array `status` from `index` on: it ends at the first `#`; there is no other
exit, so on an array without `#` the index leaves the array (`none`). -/
def scanStatus : List Char → StatusFlags → Option StatusFlags
  | [], _ => none
  | c :: rest, f => if c = '#' then some f else scanStatus rest (scanChar c f)

/-- The decoding part of `ReadScopeStatus`: `gu` is `none` when
`sendCommand (":GU#", status)` fails, and otherwise the content of the array
`status` after the call. -/
def decodeStatus (gu : Option (List Char)) : Option StatusFlags :=
  match gu with
  | none => some initialFlags
  | some status => scanStatus status initialFlags

/-- The characters the scan has a `case` for, the terminator apart. -/
def recognised : List Char :=
  ['n', 'N', 'p', 'P', 'I', 'H', '(', 'O', 'k', 'A', 'E', 'T', 'W', 'r', 'w', 'u', 'F', 'h']

/-! ## Track state -/

/-- Mount state, `TelescopeStatus`. -/
inductive TelescopeStatus where
  | SCOPE_IDLE
  | SCOPE_SLEWING
  | SCOPE_TRACKING
  | SCOPE_PARKING
  | SCOPE_PARKED
  deriving DecidableEq, Repr

/-- Modelled from the spec: `SetParked` belongs to the telescope base class,
which is not part of the sources at hand.  A mount-reported park makes the
state Parked; clearing the parked state leaves the mount in state Idle. -/
def SetParked (isparked : Bool) : TelescopeStatus :=
  if isparked then TelescopeStatus.SCOPE_PARKED else TelescopeStatus.SCOPE_IDLE

/-- The track-state block of `ReadScopeStatus`: the new `TrackState` from the
old one, the state of `TrackStateS[INDI_ENABLED]` and the decoded flags. -/
def trackStateStep (TrackState : TelescopeStatus) (trackEnabled : ISState)
    (f : StatusFlags) : TelescopeStatus :=
  if TrackState = TelescopeStatus.SCOPE_SLEWING then
    if f._IsSlewCompleted then TelescopeStatus.SCOPE_TRACKING else TrackState
  else if TrackState ≠ TelescopeStatus.SCOPE_PARKED ∧ f._IsParked = true then
    SetParked true
  else
    let wasTracking : Bool := decide (trackEnabled = ISState.ISS_ON)
    if wasTracking ≠ f._IsTracking then
      (if f._IsTracking then TelescopeStatus.SCOPE_TRACKING else TelescopeStatus.SCOPE_IDLE)
    else TrackState

/-! ## The poll cycle `ReadScopeStatus` -/

/-- What the mount and the serial line give back during one call: for each
query the driver may issue, the answer it would get.  `GU`, `Gm`, `GXU1` and
`GXU2` are `none` when `sendCommand` fails and otherwise the content of the
response array; `GX9L` is the content of the response array after the call,
whatever its result; the coordinate and `getFloat` readings are `none` when the
read fails; `write` is the result of `sendCommand (cmd)` for a command that
expects no response. -/
structure Mount (α : Type) where
  GU : Option (List Char)
  RA : Option α
  DEC : Option α
  Gm : Option (List Char)
  GXU1 : Option String
  GXU2 : Option String
  GX9L : List Char
  Az : Option α
  Alt : Option α
  GXE9 : Option α
  GXEA : Option α
  write : String → Bool

/-- The calls a poll makes that are visible outside the driver object, in the
order they are made. -/
inductive Event (α : Type) where
  | sendCommand (cmd : String)
  | getLX200RA
  | getLX200DEC
  | getLX200Az
  | getLX200Alt
  | getFloat (cmd : String)
  | apply (property : String)
  | IDSetSwitch (property : String)
  | IDSetNumberEqNP (s : IPState) (msg : String)
  | applyNumber (m : SetNumberVector α)
  | SetParked (isparked : Bool)
  | setPierSide (side : TelescopePierSide)
  | NewRaDec (ra dec : α)
  deriving DecidableEq

/-- The members of the driver object that `ReadScopeStatus` and the
`MERIDIAN_LIMIT` block of `ISNewNumber` read or write. -/
structure DriverState (α : Type) where
  isConnected : Bool
  HasPierSide : Bool
  TrackState : TelescopeStatus
  TrackStateS_ENABLED : ISState
  RefractSP_ON : ISState
  RefractSP_OFF : ISState
  RefractSP_s : IPState
  TrackModeS : NYXTelescopeTrackMode → ISState
  TrackModeSP_s : IPState
  EqNP_s : IPState
  currentRA : α
  currentDEC : α
  pierSide : TelescopePierSide
  RAMotorStatusTP : String
  DECMotorStatusTP : String
  RAHardLimitTP : String
  RAHardLimitTP_s : IPState
  AltAzNP_s : IPState
  AltAzNP_AZ : α
  AltAzNP_ALT : α
  currentAz : α
  currentAlt : α
  minPastEastMeridian : α
  minPastWestMeridian : α
  MeridianLimitNP : INumberVectorProperty α

/-- The driver object together with the calls made so far. -/
structure Run (α : Type) where
  st : DriverState α
  log : List (Event α)

/-- Result of `ReadScopeStatus`: the value returned, the driver object and the
calls made. -/
structure Poll (α : Type) where
  ret : Bool
  st : DriverState α
  log : List (Event α)

/-- The value `MeridianLimitNP[0].getValue ()`. -/
def value0 {α : Type} (nvp : INumberVectorProperty α) : Option α :=
  nvp.np.head?.map (fun np => np.value)

/-- The blocks that publish the refraction and tracking-mode switches from the
decoded flags. -/
def publishFlags {α : Type} (f : StatusFlags) (r : Run α) : Run α :=
  { st := { r.st with
      RefractSP_ON := if f._DoesRefractionComp then ISState.ISS_ON else ISState.ISS_OFF,
      RefractSP_OFF := if f._DoesRefractionComp then ISState.ISS_OFF else ISState.ISS_ON,
      RefractSP_s := IPState.IPS_OK,
      TrackModeS := fun m => if m = f._TrackingMode then ISState.ISS_ON else ISState.ISS_OFF,
      TrackModeSP_s := IPState.IPS_OK },
    log := r.log ++ [Event.apply "RefractSP", Event.IDSetSwitch "TrackModeSP"] }

/-- The track-state block: the new state is `trackStateStep`, and `SetParked`
is called on its second branch. -/
def trackStateBlock {α : Type} (f : StatusFlags) (r : Run α) : Run α :=
  { st := { r.st with
      TrackState := trackStateStep r.st.TrackState r.st.TrackStateS_ENABLED f },
    log := r.log ++
      (if r.st.TrackState ≠ TelescopeStatus.SCOPE_SLEWING ∧
          r.st.TrackState ≠ TelescopeStatus.SCOPE_PARKED ∧ f._IsParked = true
        then [Event.SetParked true] else []) }

/-- The block that reads RA and DEC; the flag is false when the cycle returns
false from it. -/
def readEqBlock {α : Type} (io : Mount α) (r : Run α) : Run α × Bool :=
  match io.RA with
  | none =>
    ({ st := { r.st with EqNP_s := IPState.IPS_ALERT },
       log := r.log ++ [Event.getLX200RA,
         Event.IDSetNumberEqNP IPState.IPS_ALERT "Error reading Ra - Dec"] }, false)
  | some ra =>
    match io.DEC with
    | none =>
      ({ st := { r.st with currentRA := ra, EqNP_s := IPState.IPS_ALERT },
         log := r.log ++ [Event.getLX200RA, Event.getLX200DEC,
           Event.IDSetNumberEqNP IPState.IPS_ALERT "Error reading Ra - Dec"] }, false)
    | some dec =>
      ({ st := { r.st with currentRA := ra, currentDEC := dec },
         log := r.log ++ [Event.getLX200RA, Event.getLX200DEC] }, true)

/-- The pier-side block followed by `NewRaDec (currentRA, currentDEC)`. -/
def pierBlock {α : Type} (io : Mount α) (r : Run α) : Run α :=
  let r1 : Run α :=
    if r.st.HasPierSide then
      match io.Gm with
      | none => { r with log := r.log ++ [Event.sendCommand ":Gm#"] }
      | some response =>
        let side :=
          if response.head? = some 'W' then TelescopePierSide.PIER_WEST
          else if response.head? = some 'E' then TelescopePierSide.PIER_EAST
          else TelescopePierSide.PIER_UNKNOWN
        { st := { r.st with pierSide := side },
          log := r.log ++ [Event.sendCommand ":Gm#", Event.setPierSide side] }
    else r
  { r1 with log := r1.log ++ [Event.NewRaDec r1.st.currentRA r1.st.currentDEC] }

/-- The two motor-status blocks; `none` when `GetMotorState` reads outside its
token vector. -/
def motorBlock {α : Type} (io : Mount α) (r : Run α) : Option (Run α) :=
  let ra : Option String :=
    match io.GXU1 with
    | none => some r.st.RAMotorStatusTP
    | some status => GetMotorState status
  let dec : Option String :=
    match io.GXU2 with
    | none => some r.st.DECMotorStatusTP
    | some status => GetMotorState status
  ra.bind fun s1 =>
  dec.bind fun s2 =>
  some { st := { r.st with RAMotorStatusTP := s1, DECMotorStatusTP := s2 },
         log := r.log ++ [Event.sendCommand ":GXU1#", Event.apply "RAMotorStatusTP",
           Event.sendCommand ":GXU2#", Event.apply "DECMotorStatusTP"] }

/-- The hard-limit block: `SetPropertyText` with Ok when the first character of
the response is 1 and with Idle otherwise, then `apply`. -/
def hardLimitBlock {α : Type} (io : Mount α) (r : Run α) : Run α :=
  let engaged : Bool := decide (io.GX9L.head? = some '1')
  { st := { r.st with
      RAHardLimitTP := if engaged then "ON" else "-",
      RAHardLimitTP_s := if engaged then IPState.IPS_OK else IPState.IPS_IDLE },
    log := r.log ++ [Event.sendCommand ":GX9L#", Event.apply "RAHardLimitTP",
      Event.apply "RAHardLimitTP"] }

/-- The block that reads Az and Alt; the flag is false when the cycle returns
false from it. -/
def altAzBlock {α : Type} (io : Mount α) (r : Run α) : Run α × Bool :=
  match io.Az with
  | none =>
    ({ st := { r.st with AltAzNP_s := IPState.IPS_ALERT },
       log := r.log ++ [Event.getLX200Az] }, false)
  | some az =>
    match io.Alt with
    | none =>
      ({ st := { r.st with currentAz := az, AltAzNP_s := IPState.IPS_ALERT },
         log := r.log ++ [Event.getLX200Az, Event.getLX200Alt] }, false)
    | some alt =>
      ({ st := { r.st with
           currentAz := az, currentAlt := alt, AltAzNP_AZ := az, AltAzNP_ALT := alt },
         log := r.log ++ [Event.getLX200Az, Event.getLX200Alt, Event.apply "AltAzNP"] }, true)

/-- The minutes-past-meridian block.  `to_string` renders a `double` as
`std::to_string` does and `ne` is the comparison `!=` of two `double`s; `none`
when `MeridianLimitNP` has no element 0. -/
def meridianBlock {α : Type} (to_string : α → String) (ne : α → α → Bool)
    (io : Mount α) (r : Run α) : Option (Run α) :=
  match io.GXE9 with
  | none =>
    let np := { r.st.MeridianLimitNP with s := IPState.IPS_ALERT }
    some { st := { r.st with MeridianLimitNP := np },
           log := r.log ++ [Event.getFloat ":GXE9#", Event.applyNumber (IDSetNumber np none)] }
  | some east =>
    match io.GXEA with
    | none =>
      let np := { r.st.MeridianLimitNP with s := IPState.IPS_ALERT }
      some { st := { r.st with minPastEastMeridian := east, MeridianLimitNP := np },
             log := r.log ++ [Event.getFloat ":GXE9#", Event.getFloat ":GXEA#",
               Event.applyNumber (IDSetNumber np none)] }
    | some west =>
      if ne east west then
        (value0 r.st.MeridianLimitNP).map fun v =>
          { st := { r.st with minPastEastMeridian := east, minPastWestMeridian := west },
            log := r.log ++ [Event.getFloat ":GXE9#", Event.getFloat ":GXEA#",
              Event.sendCommand (":SXE9," ++ to_string v ++ "#"),
              Event.sendCommand (":SXEA," ++ to_string v ++ "#"),
              Event.applyNumber (IDSetNumber r.st.MeridianLimitNP none)] }
      else
        (value0 r.st.MeridianLimitNP).map fun _ =>
          let np := { r.st.MeridianLimitNP with
            np := setValueAt r.st.MeridianLimitNP.np 0 east, s := IPState.IPS_OK }
          { st := { r.st with
              minPastEastMeridian := east, minPastWestMeridian := west,
              MeridianLimitNP := np },
            log := r.log ++ [Event.getFloat ":GXE9#", Event.getFloat ":GXEA#",
              Event.applyNumber (IDSetNumber np none)] }

/-- The steps of `ReadScopeStatus` that precede the minutes-past-meridian block:
`none` when the status scan or `GetMotorState` reads outside its array, and
otherwise the run so far with a flag that is false when the function has
returned false. -/
def pollHead {α : Type} (st : DriverState α) (io : Mount α) : Option (Run α × Bool) :=
  if st.isConnected = false then some ({ st := st, log := [] }, false)
  else
    match decodeStatus io.GU with
    | none => none
    | some f =>
      let r1 := trackStateBlock f (publishFlags f { st := st, log := [Event.sendCommand ":GU#"] })
      match readEqBlock io r1 with
      | (r2, false) => some (r2, false)
      | (r2, true) =>
        match motorBlock io (pierBlock io r2) with
        | none => none
        | some r4 => some (altAzBlock io (hardLimitBlock io r4))

/-- The poll `ReadScopeStatus ()`. -/
def ReadScopeStatus {α : Type} (to_string : α → String) (ne : α → α → Bool)
    (st : DriverState α) (io : Mount α) : Option (Poll α) :=
  match pollHead st io with
  | none => none
  | some (r, false) => some { ret := false, st := r.st, log := r.log }
  | some (r, true) =>
    (meridianBlock to_string ne io r).map fun r7 =>
      { ret := true, st := r7.st, log := r7.log }

/-- The calls of the steps that follow the RA / DEC read: pier side,
coordinate publication, motor status, hard limit, Alt/Az and the meridian
block. -/
def isLaterStep {α : Type} : Event α → Bool
  | Event.sendCommand cmd => decide (cmd ≠ ":GU#")
  | Event.getLX200Az => true
  | Event.getLX200Alt => true
  | Event.getFloat _ => true
  | Event.apply property => decide (property ≠ "RefractSP")
  | Event.applyNumber _ => true
  | Event.setPierSide _ => true
  | Event.NewRaDec _ _ => true
  | _ => false

/-! ## The block of `ISNewNumber` for `MERIDIAN_LIMIT` -/

/-- The block of `ISNewNumber` guarded by `MeridianLimitNP.isNameMatch (name)`,
for a request addressed to this device: `update` is `IUUpdateNumber` on the
vector, and the value returned by the two `sendCommand` calls (`io.write`) is
not used.  `none` when `MeridianLimitNP` has no element 0. -/
def ISNewNumber_MeridianLimit {α : Type} [LT α] [DecidableRel (fun a b : α => a < b)]
    (to_string : α → String) (g : α → String) (isSimulation : Bool)
    (st : DriverState α) (io : Mount α) (req : List (String × α)) : Option (Run α) :=
  let u := IUUpdateNumber g st.MeridianLimitNP req
  let updated : List (Event α) := u.out.map Event.applyNumber
  if isSimulation = false then
    (value0 u.vec).map fun v =>
      let _w1 := io.write (":SXE9," ++ to_string v ++ "#")
      let _w2 := io.write (":SXEA," ++ to_string v ++ "#")
      { st := { st with MeridianLimitNP := u.vec },
        log := updated ++ [Event.sendCommand (":SXE9," ++ to_string v ++ "#"),
          Event.sendCommand (":SXEA," ++ to_string v ++ "#"),
          Event.applyNumber (IDSetNumber u.vec none)] }
  else
    let np := { u.vec with s := IPState.IPS_OK }
    some { st := { st with MeridianLimitNP := np },
           log := updated ++ [Event.applyNumber (IDSetNumber np none)] }

/-! ## The exchange `sendCommand` -/

/-- Modelled from the spec: the constant `DRIVER_STOP_CHAR` is declared in the
driver's header, which is not part of the sources at hand; the terminator byte
of the protocol is `#`. -/
def DRIVER_STOP_CHAR : Char := '#'

/-- Modelled from the spec: `tty_nread_section` belongs to the serial library,
which is not part of the sources at hand.  It reads the response byte by byte
into the array until the terminator byte or the timeout, and no more than the
`nsize` bytes the array takes.  `wire` holds the bytes that arrive before the
timeout, `res` is the part of the array not yet written and `nsize` the number
of bytes it may still take.  The result is whether the terminator was read
(`TTY_OK`), and the content of that part of the array afterwards. -/
def tty_nread_section (stop_char : Char) : Nat → List Char → List Char → Bool × List Char
  | 0, _, res => (false, res)
  | _ + 1, [], res => (false, res)
  | nsize + 1, c :: wire, res =>
    if c = stop_char then (true, c :: res.tail)
    else
      let r := tty_nread_section stop_char nsize wire res.tail
      (r.1, c :: r.2)

/-- The call `sendCommand (cmd, res)` with `res_len` left at its default, on a
response array `res` of `DRIVER_LEN` bytes, all zero: `none` when the function
returns false, and otherwise the content of the array.  `writeOk` is whether
`tty_write_string` returned `TTY_OK`, and `wire` holds the bytes the mount
sends before the timeout. -/
def sendCommand (DRIVER_LEN : Nat) (writeOk : Bool) (wire : List Char) : Option (List Char) :=
  if writeOk = false then none
  else
    match tty_nread_section DRIVER_STOP_CHAR DRIVER_LEN wire
        (List.replicate DRIVER_LEN (Char.ofNat 0)) with
    | (false, _) => none
    | (true, res) => some res

/-! ## Mount type and the detection at connect time (`updateProperties`) -/

/-- Mount type, `MountType`. -/
inductive MountType where
  | AltAz
  | Equatorial
  deriving DecidableEq, Repr

/-- The command `setMountType (type)` hands to `sendCommand`. -/
def setMountTypeCommand (type : MountType) : String :=
  if type = MountType.Equatorial then ":SXEM,1#" else "::SXEM,3#"

/-- The call `setMountType (type)`: the value returned, which is the result of
the write, and the call made. -/
def setMountType {α : Type} (io : Mount α) (type : MountType) : Bool × List (Event α) :=
  (io.write (setMountTypeCommand type), [Event.sendCommand (setMountTypeCommand type)])

/-- A scanned part in which no two different characters write the same local:
not both p and P, not both T and W, and no two of the tracking-mode
characters. -/
def noConflict (a : List Char) : Prop :=
  ¬ ('p' ∈ a ∧ 'P' ∈ a) ∧ ¬ ('T' ∈ a ∧ 'W' ∈ a) ∧
  ¬ ('(' ∈ a ∧ 'O' ∈ a) ∧ ¬ ('(' ∈ a ∧ 'k' ∈ a) ∧ ¬ ('O' ∈ a ∧ 'k' ∈ a)

/-- The queries a poll sends through `sendCommand` before the
minutes-past-meridian block. -/
def queryCommands : List String := [":GU#", ":Gm#", ":GXU1#", ":GXU2#", ":GX9L#"]

/-- What the steps before the minutes-past-meridian block keep: the vector
`MeridianLimitNP` of the driver object `st`, and a log whose `sendCommand`
calls are queries. -/
def keepsMeridian {α : Type} (st : DriverState α) (r : Run α) : Prop :=
  r.st.MeridianLimitNP = st.MeridianLimitNP ∧
  ∀ c, Event.sendCommand c ∈ r.log → c ∈ queryCommands

/-! ### Sample driver object and mount -/

/-- The `MERIDIAN_LIMIT` vector as `initProperties` fills it, with the given
value and state. -/
def sampleMeridian (value : Int) (s : IPState) : INumberVectorProperty Int :=
  { device := "Pegasus NYX-101", name := "MERIDIAN_LIMIT", s := s,
    np := [{ name := "VALUE", min := -120, max := 120, step := 1, value := value }] }

/-- A connected driver object in state Slewing. -/
def sampleDriver : DriverState Int :=
  { isConnected := true, HasPierSide := true,
    TrackState := TelescopeStatus.SCOPE_SLEWING, TrackStateS_ENABLED := ISState.ISS_ON,
    RefractSP_ON := ISState.ISS_OFF, RefractSP_OFF := ISState.ISS_OFF,
    RefractSP_s := IPState.IPS_IDLE, TrackModeS := fun _ => ISState.ISS_OFF,
    TrackModeSP_s := IPState.IPS_IDLE, EqNP_s := IPState.IPS_OK,
    currentRA := 0, currentDEC := 0, pierSide := TelescopePierSide.PIER_UNKNOWN,
    RAMotorStatusTP := "", DECMotorStatusTP := "", RAHardLimitTP := "-",
    RAHardLimitTP_s := IPState.IPS_IDLE, AltAzNP_s := IPState.IPS_IDLE,
    AltAzNP_AZ := 0, AltAzNP_ALT := 0, currentAz := 0, currentAlt := 0,
    minPastEastMeridian := 0, minPastWestMeridian := 0,
    MeridianLimitNP := sampleMeridian 0 IPState.IPS_OK }

/-- A mount that answers every query, reports slew complete, reads 5 minutes
east and 7 minutes west of the meridian, and whose command writes succeed or
fail as `write` says. -/
def sampleMount (write : Bool) : Mount Int :=
  { GU := some "NpE#".data, RA := some 1, DEC := some 2, Gm := some "W#".data,
    GXU1 := some "ST,OK,OK,OK,OK,OK,OK,OK,0", GXU2 := some "SL,OK,OK,OK,OK,OK,OK,OK,0",
    GX9L := "0#".data, Az := some 3, Alt := some 4, GXE9 := some 5, GXEA := some 7,
    write := fun _ => write }

end LX200NYX101

/-! ## Theorems -/

namespace INDI

/-! ### Lemmas on `findName` -/

theorem findName_eq_none {ε : Type} (nm : ε → String) (l : List ε) (name : String) :
    findName nm l name = none ↔ name ∉ l.map nm := by
  induction l with
  | nil => simp [findName]
  | cons x xs ih =>
    by_cases h : nm x = name
    · simp [findName, h]
    · have h2 : ¬ name = nm x := fun h3 => h h3.symm
      simp [findName, h, ih, h2]

theorem findName_some_get {ε : Type} (nm : ε → String) (l : List ε) (name : String) (i : Nat)
    (h : findName nm l name = some i) : ∃ x, l[i]? = some x ∧ nm x = name := by
  induction l generalizing i with
  | nil => simp [findName] at h
  | cons x xs ih =>
    by_cases hx : nm x = name
    · simp [findName, hx] at h
      subst h
      exact ⟨x, by simp, hx⟩
    · simp [findName, hx] at h
      obtain ⟨j, hj, rfl⟩ := h
      obtain ⟨y, hy, hn⟩ := ih j hj
      exact ⟨y, by simpa using hy, hn⟩

/-! ### `IUUpdateNumber` -/

theorem IUFindNumber_eq_none {α : Type} (nvp : INumberVectorProperty α) (e : String × α) :
    IUFindNumber nvp e.1 = none ↔ unknownName nvp e := by
  unfold IUFindNumber unknownName
  exact findName_eq_none _ _ _

theorem checkEntry_unknown {α : Type} [LT α] [DecidableRel (fun a b : α => a < b)]
    (g : α → String) (nvp : INumberVectorProperty α) (e : String × α)
    (h : unknownName nvp e) : ∃ m, checkEntry g nvp e = some (IPState.IPS_IDLE, m) := by
  have h1 := (IUFindNumber_eq_none nvp e).mpr h
  simp [checkEntry, h1]

theorem checkEntry_range {α : Type} [LT α] [DecidableRel (fun a b : α => a < b)]
    (g : α → String) (nvp : INumberVectorProperty α) (e : String × α)
    (h : rangeViolation nvp e) : ∃ m, checkEntry g nvp e = some (IPState.IPS_ALERT, m) := by
  obtain ⟨i, np, hi, hnp, hr⟩ := h
  simp [checkEntry, hi, hnp, hr]

theorem checkEntry_eq_none {α : Type} [LT α] [DecidableRel (fun a b : α => a < b)]
    (g : α → String) (nvp : INumberVectorProperty α) (e : String × α)
    (h : ¬ (unknownName nvp e ∨ rangeViolation nvp e)) : checkEntry g nvp e = none := by
  cases hf : IUFindNumber nvp e.1 with
  | none => exact absurd (Or.inl ((IUFindNumber_eq_none nvp e).mp hf)) h
  | some i =>
    obtain ⟨np, hnp, _⟩ := findName_some_get _ _ _ _ hf
    have hr : ¬ (e.2 < np.min ∨ np.max < e.2) := fun hr => h (Or.inr ⟨i, np, hf, hnp, hr⟩)
    simp [checkEntry, hf, hnp, hr]

theorem checkLoop_first {α : Type} [LT α] [DecidableRel (fun a b : α => a < b)]
    (g : α → String) (nvp : INumberVectorProperty α) (pre post : List (String × α))
    (e : String × α) (hpre : ∀ x ∈ pre, ¬ (unknownName nvp x ∨ rangeViolation nvp x))
    (err : IPState × String) (he : checkEntry g nvp e = some err) :
    checkLoop g nvp (pre ++ e :: post) = some err := by
  induction pre with
  | nil => simp [checkLoop, he]
  | cons x xs ih =>
    have hx := checkEntry_eq_none g nvp x (hpre x (by simp))
    have := ih (fun y hy => hpre y (by simp [hy]))
    simp [checkLoop, hx, this]

theorem checkLoop_fails {α : Type} [LT α] [DecidableRel (fun a b : α => a < b)]
    (g : α → String) (nvp : INumberVectorProperty α) (req : List (String × α))
    (h : ∃ e ∈ req, unknownName nvp e ∨ rangeViolation nvp e) :
    ∃ err, checkLoop g nvp req = some err := by
  induction req with
  | nil => simp at h
  | cons x xs ih =>
    cases hx : checkEntry g nvp x with
    | some err => exact ⟨err, by simp [checkLoop, hx]⟩
    | none =>
      obtain ⟨e, he, hf⟩ := h
      rcases List.mem_cons.mp he with rfl | he2
      · rcases hf with hu | hr
        · obtain ⟨m, hm⟩ := checkEntry_unknown g nvp e hu
          rw [hm] at hx
          cases hx
        · obtain ⟨m, hm⟩ := checkEntry_range g nvp e hr
          rw [hm] at hx
          cases hx
      · obtain ⟨err, herr⟩ := ih ⟨e, he2, hf⟩
        exact ⟨err, by simp [checkLoop, hx, herr]⟩

theorem IUUpdateNumber_of_check {α : Type} [LT α] [DecidableRel (fun a b : α => a < b)]
    (g : α → String) (nvp : INumberVectorProperty α) (req : List (String × α))
    (st : IPState) (m : String) (h : checkLoop g nvp req = some (st, m)) :
    (IUUpdateNumber g nvp req).rc = -1 ∧ (IUUpdateNumber g nvp req).vec = { nvp with s := st } := by
  simp [IUUpdateNumber, h]

/-- C1: `IUUpdateNumber` is atomic.  If some request entry names no element of
the vector, or carries a value below the named element's `min` or above its
`max`, the call returns -1 and the element list (hence every value) is the one
before the call; the group state is Alert when the first failing entry is a
range violation and Idle when it is an unknown name. -/
theorem IUUpdateNumber_atomic {α : Type} [LT α] [DecidableRel (fun a b : α => a < b)]
    (g : α → String) (nvp : INumberVectorProperty α) (req : List (String × α))
    (hfail : ∃ e ∈ req, unknownName nvp e ∨ rangeViolation nvp e) :
    (IUUpdateNumber g nvp req).rc = -1 ∧
    (IUUpdateNumber g nvp req).vec.np = nvp.np ∧
    ∀ pre e post, req = pre ++ e :: post →
      (∀ x ∈ pre, ¬ (unknownName nvp x ∨ rangeViolation nvp x)) →
      (rangeViolation nvp e → (IUUpdateNumber g nvp req).vec.s = IPState.IPS_ALERT) ∧
      (unknownName nvp e → (IUUpdateNumber g nvp req).vec.s = IPState.IPS_IDLE) := by
  obtain ⟨⟨st, m⟩, herr⟩ := checkLoop_fails g nvp req hfail
  obtain ⟨h1, h2⟩ := IUUpdateNumber_of_check g nvp req st m herr
  refine ⟨h1, by rw [h2], ?_⟩
  intro pre e post hreq hpre
  subst hreq
  constructor
  · intro hr
    obtain ⟨m2, hm2⟩ := checkEntry_range g nvp e hr
    have := checkLoop_first g nvp pre post e hpre _ hm2
    rw [this] at herr
    cases herr
    rw [h2]
  · intro hu
    obtain ⟨m2, hm2⟩ := checkEntry_unknown g nvp e hu
    have := checkLoop_first g nvp pre post e hpre _ hm2
    rw [this] at herr
    cases herr
    rw [h2]

/-! ### `IUUpdateSwitch` -/

theorem findName_congr {ε : Type} (nm : ε → String) (l l2 : List ε) (name : String)
    (h : l.map nm = l2.map nm) : findName nm l name = findName nm l2 name := by
  induction l generalizing l2 with
  | nil =>
    cases l2 with
    | nil => rfl
    | cons y ys => simp at h
  | cons x xs ih =>
    cases l2 with
    | nil => simp at h
    | cons y ys =>
      simp only [List.map_cons, List.cons.injEq] at h
      simp [findName, h.1, ih ys h.2]

theorem findName_nodup {ε : Type} (nm : ε → String) (l : List ε) (hnd : (l.map nm).Nodup)
    (j : Nat) (x : ε) (hx : l[j]? = some x) : findName nm l (nm x) = some j := by
  induction l generalizing j with
  | nil => simp at hx
  | cons y ys ih =>
    simp only [List.map_cons, List.nodup_cons] at hnd
    cases j with
    | zero =>
      simp at hx
      subst hx
      simp [findName]
    | succ k =>
      simp at hx
      have hmem : nm x ∈ ys.map nm := List.mem_map.mpr ⟨x, List.getElem?_mem hx, rfl⟩
      have hne : nm y ≠ nm x := fun h => hnd.1 (h ▸ hmem)
      simp [findName, hne, ih hnd.2 k hx]

theorem setStateAt_names (l : List ISwitch) (i : Nat) (st : ISState) :
    (setStateAt l i st).map (fun sp => sp.name) = l.map (fun sp => sp.name) := by
  induction l generalizing i with
  | nil => simp [setStateAt]
  | cons x xs ih =>
    cases i with
    | zero => simp [setStateAt]
    | succ k => simp [setStateAt, ih k]

theorem setStateAt_get (l : List ISwitch) (i j : Nat) (st : ISState) :
    (setStateAt l i st)[j]? =
      (l[j]?).map (fun sp => if j = i then { sp with s := st } else sp) := by
  induction l generalizing i j with
  | nil => simp [setStateAt]
  | cons x xs ih =>
    cases i with
    | zero =>
      cases j with
      | zero => simp [setStateAt]
      | succ m => simp [setStateAt]
    | succ k =>
      cases j with
      | zero => simp [setStateAt]
      | succ m => simp [setStateAt, ih k m]

theorem lastAssign_cons (e : String × ISState) (rest : List (String × ISState)) (name : String) :
    lastAssign (e :: rest) name =
      match lastAssign rest name with
      | some st => some st
      | none => if e.1 = name then some e.2 else none := rfl

/-- The assignment loop, when it runs to its end, leaves device, name, rule and
state alone, keeps every switch name, and gives the switch at index `j` the
last state the request assigns to its name if `j` is the first switch of that
name, and its old state otherwise. -/
theorem assignLoop_ok (svp : ISwitchVectorProperty) (req : List (String × ISState))
    (res : ISwitchVectorProperty) (h : assignLoop svp req = Except.ok res) :
    res.device = svp.device ∧ res.name = svp.name ∧ res.r = svp.r ∧ res.s = svp.s ∧
    res.sp.map (fun sp => sp.name) = svp.sp.map (fun sp => sp.name) ∧
    ∀ (j : Nat) (sw : ISwitch), svp.sp[j]? = some sw →
      res.sp[j]? = some { sw with s :=
        (if IUFindSwitch svp sw.name = some j then (lastAssign req sw.name).getD sw.s
        else sw.s) } := by
  induction req generalizing svp with
  | nil =>
    simp only [assignLoop, Except.ok.injEq] at h
    subst h
    refine ⟨rfl, rfl, rfl, rfl, rfl, ?_⟩
    intro j sw hj
    simp [lastAssign, hj]
  | cons e rest ih =>
    cases hf : IUFindSwitch svp e.1 with
    | none => simp [assignLoop, hf] at h
    | some i =>
      simp only [assignLoop, hf] at h
      obtain ⟨h1, h2, h3, h4, h5, h6⟩ := ih _ h
      simp only [setStateAt_names] at h5
      refine ⟨h1, h2, h3, h4, h5, ?_⟩
      intro j sw hj
      have hfind : ∀ nm, IUFindSwitch
          { svp with sp := setStateAt svp.sp i e.2 } nm = IUFindSwitch svp nm := by
        intro nm
        exact findName_congr _ _ _ _ (setStateAt_names _ _ _)
      obtain ⟨x, hx, hxn⟩ := findName_some_get _ _ _ _ hf
      have hj1 : (setStateAt svp.sp i e.2)[j]? =
          some (if j = i then ({ sw with s := e.2 } : ISwitch) else sw) := by
        rw [setStateAt_get, hj]
        rfl
      have := h6 j _ hj1
      rw [this]
      simp only [hfind, lastAssign_cons]
      by_cases hji : j = i
      · subst hji
        rw [hj] at hx
        cases hx
        have hf2 : IUFindSwitch svp sw.name = some j := by rw [hxn]; exact hf
        simp only [if_true, hf2, hxn]
        cases lastAssign rest e.1 <;> simp [hf]
      · by_cases hfj : IUFindSwitch svp sw.name = some j
        · have hne : ¬ e.1 = sw.name := by
            intro he
            rw [← he, hf] at hfj
            exact hji (Option.some.inj hfj).symm
          simp only [hji, if_false, hfj, if_true, hne]
          cases lastAssign rest sw.name <;> simp
        · simp [hji, hfj]

theorem assignLoop_total (svp : ISwitchVectorProperty) (req : List (String × ISState))
    (hmem : ∀ e ∈ req, e.1 ∈ svp.sp.map (fun sp => sp.name)) :
    ∃ res, assignLoop svp req = Except.ok res := by
  induction req generalizing svp with
  | nil => exact ⟨svp, rfl⟩
  | cons e rest ih =>
    cases hf : IUFindSwitch svp e.1 with
    | none =>
      exact absurd (hmem e (by simp)) ((findName_eq_none _ _ _).mp hf)
    | some i =>
      simp only [assignLoop, hf]
      apply ih
      intro x hx
      simp only [setStateAt_names]
      exact hmem x (by simp [hx])

theorem assignLoop_nodup (svp : ISwitchVectorProperty) (req : List (String × ISState))
    (res : ISwitchVectorProperty) (h : assignLoop svp req = Except.ok res)
    (hnd : (svp.sp.map (fun sp => sp.name)).Nodup) :
    res.sp = svp.sp.map (fun sw => { sw with s := (lastAssign req sw.name).getD sw.s }) := by
  obtain ⟨_, _, _, _, h5, h6⟩ := assignLoop_ok svp req res h
  apply List.ext_getElem?
  intro j
  cases hj : svp.sp[j]? with
  | none =>
    have hlen : res.sp.length = svp.sp.length := by
      have := congrArg List.length h5
      simpa using this
    have h1 : svp.sp.length ≤ j := List.getElem?_eq_none_iff.mp hj
    have h2 : res.sp[j]? = none := List.getElem?_eq_none_iff.mpr (by omega)
    simp [h2, hj]
  | some sw =>
    have hf : IUFindSwitch svp sw.name = some j := findName_nodup _ _ hnd j sw hj
    rw [h6 j sw hj]
    simp [hf, hj]

theorem map_off_congr (l l2 : List ISwitch)
    (h : l.map (fun sp => sp.name) = l2.map (fun sp => sp.name)) :
    l.map (fun sp => ({ sp with s := ISState.ISS_OFF } : ISwitch)) =
      l2.map (fun sp => ({ sp with s := ISState.ISS_OFF } : ISwitch)) := by
  have e : ∀ l : List ISwitch, l.map (fun sp => ({ sp with s := ISState.ISS_OFF } : ISwitch)) =
      (l.map (fun sp => sp.name)).map (fun n => ({ name := n, s := ISState.ISS_OFF } : ISwitch)) := by
    intro l
    simp [List.map_map, Function.comp_def]
  rw [e l, e l2, h]

theorem map_off_of_count_zero (l : List ISwitch) (h : countOn l = 0) :
    l.map (fun sp => ({ sp with s := ISState.ISS_OFF } : ISwitch)) = l := by
  induction l with
  | nil => rfl
  | cons x xs ih =>
    obtain ⟨n, st⟩ := x
    cases st with
    | ISS_ON => simp [countOn, List.countP_cons] at h
    | ISS_OFF =>
      have h2 : countOn xs = 0 := by
        simpa [countOn, List.countP_cons] using h
      simp [ih h2]

theorem findOn_of_count_one (l : List ISwitch) (h : countOn l = 1) :
    ∃ k sw, findOn l = some k ∧ l[k]? = some sw ∧
      setStateAt (l.map (fun sp => ({ sp with s := ISState.ISS_OFF } : ISwitch))) k
        ISState.ISS_ON = l := by
  induction l with
  | nil => simp [countOn] at h
  | cons x xs ih =>
    obtain ⟨n, st⟩ := x
    cases st with
    | ISS_ON =>
      have h2 : countOn xs = 0 := by
        simpa [countOn, List.countP_cons] using h
      refine ⟨0, ⟨n, ISState.ISS_ON⟩, by simp [findOn], by simp, ?_⟩
      simp [setStateAt, map_off_of_count_zero xs h2]
    | ISS_OFF =>
      have h2 : countOn xs = 1 := by
        simpa [countOn, List.countP_cons] using h
      obtain ⟨k, sw, hk, hsw, hset⟩ := ih h2
      refine ⟨k + 1, sw, by simp [findOn, hk], by simpa using hsw, ?_⟩
      simp [setStateAt, hset]

/-- C2: on a one-of-many group with exactly one switch ON and distinct switch
names, a request whose names are all members but whose last assignments turn
ON zero or several switches makes `IUUpdateSwitch` return -1 with the group
state Idle and every switch in the state it had before the call, so exactly one
switch, the one ON before, is ON; the one record written carries that state. -/
theorem IUUpdateSwitch_reverts (sn0 : String) (svp : ISwitchVectorProperty)
    (req : List (String × ISState))
    (hr : svp.r = ISRule.ISR_1OFMANY)
    (hone : countOn svp.sp = 1)
    (hnd : (svp.sp.map (fun sp => sp.name)).Nodup)
    (hmem : ∀ e ∈ req, e.1 ∈ svp.sp.map (fun sp => sp.name))
    (hbad : svp.sp.countP (fun sw => decide (lastAssign req sw.name = some ISState.ISS_ON)) ≠ 1) :
    (IUUpdateSwitch sn0 svp req).rc = -1 ∧
    (IUUpdateSwitch sn0 svp req).vec.s = IPState.IPS_IDLE ∧
    (IUUpdateSwitch sn0 svp req).vec.sp = svp.sp ∧
    countOn (IUUpdateSwitch sn0 svp req).vec.sp = 1 ∧
    ∃ m, (IUUpdateSwitch sn0 svp req).out = [m] ∧ m.state = IPState.IPS_IDLE ∧
      m.oneSwitch = svp.sp.map (fun sw => (sw.name, sw.s)) := by
  have hnames : (IUResetSwitch svp).sp.map (fun sp => sp.name) = svp.sp.map (fun sp => sp.name) := by
    simp [IUResetSwitch, List.map_map, Function.comp_def]
  obtain ⟨res, hres⟩ := assignLoop_total (IUResetSwitch svp) req (by rw [hnames]; exact hmem)
  obtain ⟨_, _, h3, _, h5, _⟩ := assignLoop_ok _ _ _ hres
  have hsp := assignLoop_nodup _ _ _ hres (by rw [hnames]; exact hnd)
  have hcount : countOn res.sp ≠ 1 := by
    intro hc
    apply hbad
    rw [← hc, hsp]
    simp only [countOn, IUResetSwitch, List.countP_map, List.map_map]
    apply List.countP_congr
    intro sw _
    cases hl : lastAssign req sw.name <;> simp [hl]
  have hr2 : res.r = ISRule.ISR_1OFMANY := by rw [h3]; exact hr
  obtain ⟨k, sw, hk, hsw, hset⟩ := findOn_of_count_one svp.sp hone
  have hsn : storedOnName sn0 svp = sw.name := by
    simp [storedOnName, hr, IUFindOnSwitch, hk, hsw]
  have hoff : (IUResetSwitch res).sp =
      svp.sp.map (fun sp => ({ sp with s := ISState.ISS_OFF } : ISwitch)) := by
    simp only [IUResetSwitch]
    exact map_off_congr _ _ (h5.trans hnames)
  have hfind : IUFindSwitch (IUResetSwitch res) sw.name = some k := by
    have h1 : IUFindSwitch (IUResetSwitch res) sw.name = IUFindSwitch svp sw.name :=
      findName_congr _ _ _ _ (by rw [hoff]; simp [List.map_map, Function.comp_def])
    rw [h1]
    exact findName_nodup _ _ hnd k sw hsw
  have hrev : (revertTo sw.name res).sp = svp.sp := by
    simp only [revertTo, hfind]
    rw [hoff, hset]
  have hU : IUUpdateSwitch sn0 svp req =
      { rc := -1, vec := { revertTo sw.name res with s := IPState.IPS_IDLE },
        out := [IDSetSwitch { revertTo sw.name res with s := IPState.IPS_IDLE }
          (some ("Error: invalid state switch for property "
            ++ (revertTo sw.name res).name ++ ". "
            ++ (if countOn res.sp = 0 then "No switch is on" else "Too many switches are on")
            ++ "."))] } := by
    simp [IUUpdateSwitch, hr, hres, hr2, hcount, hsn]
  rw [hU]
  refine ⟨rfl, rfl, hrev, by simp only [hrev]; exact hone, _, rfl, rfl, ?_⟩
  simp only [IDSetSwitch, hrev]
theorem lastAssign_none (req : List (String × ISState)) (name : String)
    (h : name ∉ req.map (fun e => e.1)) : lastAssign req name = none := by
  induction req with
  | nil => rfl
  | cons e rest ih =>
    simp only [List.map_cons, List.mem_cons, not_or] at h
    have hne : ¬ e.1 = name := fun h2 => h.1 h2.symm
    simp [lastAssign, ih h.2, hne]

theorem IUUpdateSwitch_rc_zero (sn0 : String) (svp : ISwitchVectorProperty)
    (req : List (String × ISState)) (hr : svp.r = ISRule.ISR_1OFMANY)
    (h0 : (IUUpdateSwitch sn0 svp req).rc = 0) :
    assignLoop (IUResetSwitch svp) req = Except.ok (IUUpdateSwitch sn0 svp req).vec ∧
    countOn (IUUpdateSwitch sn0 svp req).vec.sp = 1 := by
  cases hres : assignLoop (IUResetSwitch svp) req with
  | error err =>
    simp [IUUpdateSwitch, hr, hres] at h0
  | ok res =>
    obtain ⟨_, _, h3, _, _, _⟩ := assignLoop_ok _ _ _ hres
    have hr2 : res.r = ISRule.ISR_1OFMANY := by rw [h3]; exact hr
    by_cases hc : countOn res.sp = 1
    · simp [IUUpdateSwitch, hr, hres, hr2, hc]
    · simp [IUUpdateSwitch, hr, hres, hr2, hc] at h0

/-- C4: whenever `IUUpdateSwitch` returns 0 on a one-of-many group, exactly one
switch is ON afterwards (the switch names being those before the call); every
switch that is ON has On as the last state the request assigns to its name,
and every switch whose name the request does not mention is OFF. -/
theorem IUUpdateSwitch_success (sn0 : String) (svp : ISwitchVectorProperty)
    (req : List (String × ISState)) (hr : svp.r = ISRule.ISR_1OFMANY)
    (h0 : (IUUpdateSwitch sn0 svp req).rc = 0) :
    countOn (IUUpdateSwitch sn0 svp req).vec.sp = 1 ∧
    (IUUpdateSwitch sn0 svp req).vec.sp.map (fun sp => sp.name)
      = svp.sp.map (fun sp => sp.name) ∧
    (∀ sw ∈ (IUUpdateSwitch sn0 svp req).vec.sp, sw.s = ISState.ISS_ON →
      lastAssign req sw.name = some ISState.ISS_ON) ∧
    (∀ sw ∈ (IUUpdateSwitch sn0 svp req).vec.sp, sw.name ∉ req.map (fun e => e.1) →
      sw.s = ISState.ISS_OFF) := by
  obtain ⟨hres, hcount⟩ := IUUpdateSwitch_rc_zero sn0 svp req hr h0
  generalize (IUUpdateSwitch sn0 svp req).vec = res at hres hcount
  obtain ⟨_, _, _, _, h5, h6⟩ := assignLoop_ok _ _ _ hres
  have hnames : (IUResetSwitch svp).sp.map (fun sp => sp.name) = svp.sp.map (fun sp => sp.name) := by
    simp [IUResetSwitch, List.map_map, Function.comp_def]
  have key : ∀ sw ∈ res.sp, ∃ (j : Nat) (old : ISwitch), old.s = ISState.ISS_OFF ∧
      sw = { old with s :=
        (if IUFindSwitch (IUResetSwitch svp) old.name = some j
          then (lastAssign req old.name).getD old.s else old.s) } := by
    intro sw hsw
    obtain ⟨j, hj⟩ := List.mem_iff_getElem?.mp hsw
    cases hold : (IUResetSwitch svp).sp[j]? with
    | none =>
      have hlen : res.sp.length = (IUResetSwitch svp).sp.length := by
        have := congrArg List.length h5
        simpa using this
      have h1 : (IUResetSwitch svp).sp.length ≤ j := List.getElem?_eq_none_iff.mp hold
      have h2 : res.sp[j]? = none := List.getElem?_eq_none_iff.mpr (by omega)
      rw [h2] at hj
      cases hj
    | some old =>
      have hoff : old.s = ISState.ISS_OFF := by
        have hm := List.getElem?_mem hold
        simp only [IUResetSwitch, List.mem_map] at hm
        obtain ⟨a, _, rfl⟩ := hm
        rfl
      have := h6 j old hold
      rw [hj] at this
      exact ⟨j, old, hoff, Option.some.inj this⟩
  refine ⟨hcount, h5.trans hnames, ?_, ?_⟩
  · intro sw hsw hon
    obtain ⟨j, old, hoff, rfl⟩ := key sw hsw
    simp only at hon ⊢
    by_cases hf : IUFindSwitch (IUResetSwitch svp) old.name = some j
    · simp only [hf, if_true] at hon
      cases hl : lastAssign req old.name with
      | none => simp [hl, hoff] at hon
      | some st =>
        simp only [hl, Option.getD_some] at hon
        rw [hon]
    · simp [hf, hoff] at hon
  · intro sw hsw hnot
    obtain ⟨j, old, hoff, rfl⟩ := key sw hsw
    simp only at hnot ⊢
    rw [lastAssign_none req old.name hnot]
    simp [hoff]

/-- Witness for C1: a valid entry followed by an out-of-range one. -/
theorem IUUpdateNumber_atomic_witness :
    (IUUpdateNumber (fun _ => "") sampleNumbers
      [("ELEVATION_OVERHEAD", 70), ("ELEVATION_HORIZON", 5)]).rc = -1 ∧
    (IUUpdateNumber (fun _ => "") sampleNumbers
      [("ELEVATION_OVERHEAD", 70), ("ELEVATION_HORIZON", 5)]).vec.np = sampleNumbers.np :=
  have h := IUUpdateNumber_atomic (fun _ => "") sampleNumbers
    [("ELEVATION_OVERHEAD", 70), ("ELEVATION_HORIZON", 5)]
    ⟨("ELEVATION_HORIZON", 5), by simp,
      Or.inr ⟨1, { name := "ELEVATION_HORIZON", min := -30, max := 0, step := 1, value := 0 },
        by decide, by decide, Or.inr (by decide)⟩⟩
  ⟨h.1, h.2.1⟩

/-- Witness for C2: a request that turns the one ON switch OFF. -/
theorem IUUpdateSwitch_reverts_witness :
    (IUUpdateSwitch "" sampleSwitches [("0.50", ISState.ISS_OFF)]).rc = -1 ∧
    (IUUpdateSwitch "" sampleSwitches [("0.50", ISState.ISS_OFF)]).vec.sp = sampleSwitches.sp :=
  have h := IUUpdateSwitch_reverts "" sampleSwitches [("0.50", ISState.ISS_OFF)]
    (by decide) (by decide) (by decide) (by decide) (by decide)
  ⟨h.1, h.2.2.1⟩

/-- C3 (failing input): on the one-of-many group `sampleSwitches`, whose
switch "0.50" is ON, a request naming the unknown switch "X" returns -1 with
the group state Idle and leaves every switch OFF, in the vector and in the
record written; after a valid entry that precedes the unknown name, the switch
ON is the one that entry names, not the one ON before the call. -/
theorem IUUpdateSwitch_unknown_name_not_restored :
    (IUUpdateSwitch "" sampleSwitches [("X", ISState.ISS_ON)]).rc = -1 ∧
    (IUUpdateSwitch "" sampleSwitches [("X", ISState.ISS_ON)]).vec.s = IPState.IPS_IDLE ∧
    countOn sampleSwitches.sp = 1 ∧
    countOn (IUUpdateSwitch "" sampleSwitches [("X", ISState.ISS_ON)]).vec.sp = 0 ∧
    (IUUpdateSwitch "" sampleSwitches [("X", ISState.ISS_ON)]).out.map (fun m => m.oneSwitch) =
      [[("0.25", ISState.ISS_OFF), ("0.50", ISState.ISS_OFF), ("1.00", ISState.ISS_OFF)]] ∧
    (IUUpdateSwitch "" sampleSwitches
        [("1.00", ISState.ISS_ON), ("X", ISState.ISS_ON)]).vec.sp =
      [{ name := "0.25", s := ISState.ISS_OFF }, { name := "0.50", s := ISState.ISS_OFF },
       { name := "1.00", s := ISState.ISS_ON }] := by
  decide

/-- Witness for C4: a request that moves the ON switch. -/
theorem IUUpdateSwitch_success_witness :
    countOn (IUUpdateSwitch "" sampleSwitches [("1.00", ISState.ISS_ON)]).vec.sp = 1 :=
  (IUUpdateSwitch_success "" sampleSwitches [("1.00", ISState.ISS_ON)]
    (by decide) (by decide)).1


/-! ### `dispatch` -/

theorem isPropDefined_eq_zero (roCheck : List ROSC) (name : String) :
    isPropDefined roCheck name = 0 ↔ name ∉ roCheck.map (fun sc => sc.propName) := by
  induction roCheck with
  | nil => simp [isPropDefined]
  | cons sc rest ih =>
    by_cases h : name = sc.propName
    · simp [isPropDefined, h]
    · simp [isPropDefined, h, ih]

theorem registeredPerm_some (roCheck : List ROSC) (name : String) (p : IPerm)
    (h : registeredPerm roCheck name = some p) :
    isPropDefined roCheck name = 1 ∧ isReadOnly roCheck name = decide (p = IPerm.IP_RO) := by
  induction roCheck with
  | nil => simp [registeredPerm] at h
  | cons sc rest ih =>
    by_cases hn : sc.propName = name
    · have hn2 : name = sc.propName := hn.symm
      simp only [registeredPerm, List.find?_cons, hn, decide_True, Option.map_some',
        Option.some.injEq] at h
      simp [isPropDefined, isReadOnly, hn, h]
    · have hn2 : ¬ name = sc.propName := fun e => hn e.symm
      have h2 : registeredPerm rest name = some p := by
        simpa [registeredPerm, List.find?_cons, hn] using h
      simp [isPropDefined, isReadOnly, hn, hn2, ih h2]

/-- C19 (counterexample): an update request for a property that is not in the
table makes `dispatch` return -1, and `clientMsgCB` writes a dispatch error
line. -/
theorem dispatch_unknown_property_sample :
    isPropDefined sampleRegistry "FOCUS_POSITION" = 0 ∧
    (dispatch sampleHelpers sampleRegistry
      (sampleRequest "newNumberVector" "FOCUS_POSITION")).rc = -1 ∧
    clientMsgCB_report "nyx" "" (dispatch sampleHelpers sampleRegistry
      (sampleRequest "newNumberVector" "FOCUS_POSITION")) = ["nyx dispatch error: "] := by
  decide

/-- C19 (amended): for an inbound `newNumberVector`, `newSwitchVector`,
`newTextVector` or `newBLOBVector` whose property name is not in the table,
`dispatch` calls no driver entry point and sends no message, and it returns the
failure code -1, for which `clientMsgCB` writes a dispatch error line. -/
theorem dispatch_unknown_property {α : Type} (h : Helpers α) (roCheck : List ROSC)
    (root : XMLEle) (dev name : String) (htag : root.tag ∈ newVectorTags)
    (hdn : h.crackDN root = Except.ok (dev, name))
    (hundef : name ∉ roCheck.map (fun sc => sc.propName)) :
    (dispatch h roCheck root).rc = -1 ∧ (dispatch h roCheck root).calls = [] ∧
    (dispatch h roCheck root).messages = [] ∧ (dispatch h roCheck root).exits = false ∧
    ∀ me msg0, clientMsgCB_report me msg0 (dispatch h roCheck root) ≠ [] := by
  have h0 := (isPropDefined_eq_zero roCheck name).mpr hundef
  have hd : dispatch h roCheck root = Dispatched.ret (-1) none := by
    simp only [newVectorTags, List.mem_cons, List.mem_singleton, List.not_mem_nil,
      or_false] at htag
    rcases htag with ht | ht | ht | ht <;> simp [dispatch, ht, hdn, h0]
  rw [hd]
  refine ⟨rfl, rfl, rfl, rfl, ?_⟩
  intro me msg0
  simp [clientMsgCB_report, Dispatched.ret]

/-- Witness for C19 (amended): the sample request for `FOCUS_POSITION`. -/
theorem dispatch_unknown_property_witness :
    (dispatch sampleHelpers sampleRegistry
      (sampleRequest "newSwitchVector" "FOCUS_POSITION")).rc = -1 :=
  (dispatch_unknown_property sampleHelpers sampleRegistry
    (sampleRequest "newSwitchVector" "FOCUS_POSITION") "Pegasus NYX-101" "FOCUS_POSITION"
    (by decide) rfl (by decide)).1

theorem numberMembers_fst {α : Type} (h : Helpers α) (name : String) (el : List XMLChild) :
    (numberMembers h name el).1 =
      el.filterMap (fun ep =>
        if ep.tag = "oneNumber" then
          (findXMLAtt ep.att "name").bind fun na =>
            (h.f_scansexa ep.pcdata).map fun v => (na, v)
        else none) := by
  induction el with
  | nil => rfl
  | cons ep rest ih =>
    simp only [numberMembers, List.filterMap_cons]
    by_cases ht : ep.tag = "oneNumber"
    · simp only [ht, if_true]
      cases hn : findXMLAtt ep.att "name" with
      | none => simpa using ih
      | some na =>
        cases hv : h.f_scansexa ep.pcdata with
        | none => simpa using ih
        | some v => simpa using ih
    · simp only [ht, if_false]
      exact ih

theorem switchMembers_fst (name : String) (el : List XMLChild) :
    (switchMembers name el).1 =
      el.filterMap (fun ep =>
        if ep.tag = "oneSwitch" then
          (findXMLAtt ep.att "name").bind fun na =>
            if ep.pcdata = "On" then some (na, ISState.ISS_ON)
            else if ep.pcdata = "Off" then some (na, ISState.ISS_OFF)
            else none
        else none) := by
  induction el with
  | nil => rfl
  | cons ep rest ih =>
    simp only [switchMembers, List.filterMap_cons]
    by_cases ht : ep.tag = "oneSwitch"
    · simp only [ht, if_true]
      cases hn : findXMLAtt ep.att "name" with
      | none => simpa using ih
      | some na =>
        by_cases hon : ep.pcdata = "On"
        · simpa [hon] using ih
        · by_cases hoff : ep.pcdata = "Off"
          · simpa [hon, hoff] using ih
          · simpa [hon, hoff] using ih
    · simp only [ht, if_false]
      exact ih

theorem textMembers_eq (el : List XMLChild) :
    textMembers el =
      el.filterMap (fun ep =>
        if ep.tag = "oneText" then
          (findXMLAtt ep.att "name").map fun na => (na, ep.pcdata)
        else none) := by
  induction el with
  | nil => rfl
  | cons ep rest ih =>
    simp only [textMembers, List.filterMap_cons]
    by_cases ht : ep.tag = "oneText"
    · simp only [ht, if_true]
      cases hn : findXMLAtt ep.att "name" with
      | none => simpa using ih
      | some na => simpa using ih
    · simp only [ht, if_false]
      exact ih

/-- C20 (counterexample): `MERIDIAN_LIMIT` is registered read-write, and a
`newNumberVector` for it without a valid member (its only member does not
parse, or it has no member at all) makes `dispatch` return 0 without calling
`ISNewNumber`: the request does not reach the handler. -/
theorem dispatch_read_write_no_member :
    registeredPerm sampleRegistry "MERIDIAN_LIMIT" = some IPerm.IP_RW ∧
    (dispatch sampleHelpers sampleRegistry sampleBadRequest).rc = 0 ∧
    (dispatch sampleHelpers sampleRegistry sampleBadRequest).calls = [] ∧
    (dispatch sampleHelpers sampleRegistry sampleBadRequest).messages =
      [("Pegasus NYX-101", "MERIDIAN_LIMIT: Bad format ten"),
       ("Pegasus NYX-101", "MERIDIAN_LIMIT: newNumberVector with no valid members")] ∧
    (dispatch sampleHelpers sampleRegistry { sampleBadRequest with el := [] }).rc = 0 ∧
    (dispatch sampleHelpers sampleRegistry { sampleBadRequest with el := [] }).calls = [] := by
  decide

/-- C20 (amended): read-only enforcement.  For an inbound `newNumberVector`,
`newSwitchVector` or `newTextVector` with device and name, if the table records
the name with permission `IP_RO` then `dispatch` returns -1 and calls no driver
entry point.  If it records it with another permission then `dispatch` returns
0 and calls the entry point of its kind once, with the valid members of the
request in their order, when there is at least one, and calls nothing when
there is none.  A valid member is a child `oneNumber` with a `name` attribute
whose content parses, a child `oneSwitch` with a `name` attribute and content
`On` or `Off`, a child `oneText` with a `name` attribute. -/
theorem dispatch_read_only {α : Type} (h : Helpers α) (roCheck : List ROSC)
    (root : XMLEle) (dev name : String)
    (htag : root.tag ∈ ["newNumberVector", "newSwitchVector", "newTextVector"])
    (hdn : h.crackDN root = Except.ok (dev, name)) :
    (registeredPerm roCheck name = some IPerm.IP_RO →
      (dispatch h roCheck root).rc = -1 ∧ (dispatch h roCheck root).calls = []) ∧
    (∀ p, registeredPerm roCheck name = some p → p ≠ IPerm.IP_RO →
      (dispatch h roCheck root).rc = 0 ∧
      (root.tag = "newNumberVector" →
        (dispatch h roCheck root).calls =
          match root.el.filterMap (fun ep =>
            if ep.tag = "oneNumber" then
              (findXMLAtt ep.att "name").bind fun na =>
                (h.f_scansexa ep.pcdata).map fun v => (na, v)
            else none) with
          | [] => []
          | m :: ms => [DriverCall.ISNewNumber dev name (m :: ms)]) ∧
      (root.tag = "newSwitchVector" →
        (dispatch h roCheck root).calls =
          match root.el.filterMap (fun ep =>
            if ep.tag = "oneSwitch" then
              (findXMLAtt ep.att "name").bind fun na =>
                if ep.pcdata = "On" then some (na, ISState.ISS_ON)
                else if ep.pcdata = "Off" then some (na, ISState.ISS_OFF)
                else none
            else none) with
          | [] => []
          | m :: ms => [DriverCall.ISNewSwitch dev name (m :: ms)]) ∧
      (root.tag = "newTextVector" →
        (dispatch h roCheck root).calls =
          match root.el.filterMap (fun ep =>
            if ep.tag = "oneText" then
              (findXMLAtt ep.att "name").map fun na => (na, ep.pcdata)
            else none) with
          | [] => []
          | m :: ms => [DriverCall.ISNewText dev name (m :: ms)])) := by
  simp only [List.mem_cons, List.mem_singleton, List.not_mem_nil, or_false] at htag
  constructor
  · intro hro
    obtain ⟨h1, h2⟩ := registeredPerm_some roCheck name _ hro
    have hd : dispatch h roCheck root = Dispatched.ret (-1) none := by
      rcases htag with ht | ht | ht <;> simp [dispatch, ht, hdn, h1, h2]
    rw [hd]
    exact ⟨rfl, rfl⟩
  · intro p hp hne
    obtain ⟨h1, h2⟩ := registeredPerm_some roCheck name _ hp
    have h3 : isReadOnly roCheck name = false := by rw [h2]; simpa using hne
    rcases htag with ht | ht | ht
    · refine ⟨?_, ?_, ?_, ?_⟩
      · by_cases hl : 0 < (numberMembers h name root.el).1.length <;>
          simp [dispatch, ht, hdn, h1, h3, hl]
      · intro _
        rw [← numberMembers_fst h name root.el]
        cases hm : (numberMembers h name root.el).1 with
        | nil => simp [dispatch, ht, hdn, h1, h3, hm]
        | cons m ms => simp [dispatch, ht, hdn, h1, h3, hm]
      · intro ht2
        rw [ht] at ht2
        exact absurd ht2 (by decide)
      · intro ht2
        rw [ht] at ht2
        exact absurd ht2 (by decide)
    · refine ⟨?_, ?_, ?_, ?_⟩
      · by_cases hl : 0 < (switchMembers name root.el).1.length <;>
          simp [dispatch, ht, hdn, h1, h3, hl]
      · intro ht2
        rw [ht] at ht2
        exact absurd ht2 (by decide)
      · intro _
        rw [← switchMembers_fst name root.el]
        cases hm : (switchMembers name root.el).1 with
        | nil => simp [dispatch, ht, hdn, h1, h3, hm]
        | cons m ms => simp [dispatch, ht, hdn, h1, h3, hm]
      · intro ht2
        rw [ht] at ht2
        exact absurd ht2 (by decide)
    · refine ⟨?_, ?_, ?_, ?_⟩
      · by_cases hl : 0 < (textMembers root.el).length <;>
          simp [dispatch, ht, hdn, h1, h3, hl]
      · intro ht2
        rw [ht] at ht2
        exact absurd ht2 (by decide)
      · intro ht2
        rw [ht] at ht2
        exact absurd ht2 (by decide)
      · intro _
        rw [← textMembers_eq root.el]
        cases hm : textMembers root.el with
        | nil => simp [dispatch, ht, hdn, h1, h3, hm]
        | cons m ms => simp [dispatch, ht, hdn, h1, h3, hm]

/-- Witness for C20 (amended): the read-only `HORIZONTAL_COORD` is rejected and
the read-write `MERIDIAN_LIMIT` reaches `ISNewNumber` with its member. -/
theorem dispatch_read_only_witness :
    ((dispatch sampleHelpers sampleRegistry
        (sampleRequest "newNumberVector" "HORIZONTAL_COORD")).rc = -1 ∧
      (dispatch sampleHelpers sampleRegistry
        (sampleRequest "newNumberVector" "HORIZONTAL_COORD")).calls = []) ∧
    (dispatch sampleHelpers sampleRegistry
        (sampleRequest "newNumberVector" "MERIDIAN_LIMIT")).calls =
      [DriverCall.ISNewNumber "Pegasus NYX-101" "MERIDIAN_LIMIT" [("VALUE", 10)]] :=
  ⟨(dispatch_read_only sampleHelpers sampleRegistry
      (sampleRequest "newNumberVector" "HORIZONTAL_COORD") "Pegasus NYX-101"
      "HORIZONTAL_COORD" (by decide) rfl).1 (by decide),
   ((dispatch_read_only sampleHelpers sampleRegistry
      (sampleRequest "newNumberVector" "MERIDIAN_LIMIT") "Pegasus NYX-101"
      "MERIDIAN_LIMIT" (by decide) rfl).2 IPerm.IP_RW (by decide) (by decide)).2.1
      (by decide)⟩

/-! ### `IUUpdateNumber`: success -/

theorem setValueAt_names {α : Type} (l : List (INumber α)) (i : Nat) (v : α) :
    (setValueAt l i v).map (fun np => np.name) = l.map (fun np => np.name) := by
  induction l generalizing i with
  | nil => simp [setValueAt]
  | cons x xs ih =>
    cases i with
    | zero => simp [setValueAt]
    | succ k => simp [setValueAt, ih k]

theorem setValueAt_get {α : Type} (l : List (INumber α)) (i j : Nat) (v : α) :
    (setValueAt l i v)[j]? =
      (l[j]?).map (fun np => if j = i then ({ np with value := v } : INumber α) else np) := by
  induction l generalizing i j with
  | nil => simp [setValueAt]
  | cons x xs ih =>
    cases i with
    | zero =>
      cases j with
      | zero => simp [setValueAt]
      | succ m => simp [setValueAt]
    | succ k =>
      cases j with
      | zero => simp [setValueAt]
      | succ m => simp [setValueAt, ih k m]

theorem lastValue_cons {α : Type} (e : String × α) (rest : List (String × α)) (name : String) :
    lastValue (e :: rest) name =
      match lastValue rest name with
      | some v => some v
      | none => if e.1 = name then some e.2 else none := rfl

/-- The second loop of `IUUpdateNumber` leaves device, name and state alone,
keeps every element name, and gives the element at index `j` the last value the
request assigns to its name if `j` is the first element of that name, and its
old value otherwise. -/
theorem commitLoop_spec {α : Type} (nvp : INumberVectorProperty α) (req : List (String × α)) :
    (commitLoop nvp req).device = nvp.device ∧ (commitLoop nvp req).name = nvp.name ∧
    (commitLoop nvp req).s = nvp.s ∧
    (commitLoop nvp req).np.map (fun np => np.name) = nvp.np.map (fun np => np.name) ∧
    ∀ (j : Nat) (np : INumber α), nvp.np[j]? = some np →
      (commitLoop nvp req).np[j]? = some { np with value :=
        (if IUFindNumber nvp np.name = some j then (lastValue req np.name).getD np.value
        else np.value) } := by
  induction req generalizing nvp with
  | nil =>
    refine ⟨rfl, rfl, rfl, rfl, ?_⟩
    intro j np hj
    simp [commitLoop, lastValue, hj]
  | cons e rest ih =>
    cases hf : IUFindNumber nvp e.1 with
    | none =>
      simp only [commitLoop, hf]
      obtain ⟨h1, h2, h3, h4, h5⟩ := ih nvp
      refine ⟨h1, h2, h3, h4, ?_⟩
      intro j np hj
      rw [h5 j np hj, lastValue_cons]
      have hne : ¬ e.1 = np.name := by
        intro he
        have hmem : np.name ∈ nvp.np.map (fun x => x.name) :=
          List.mem_map.mpr ⟨np, List.getElem?_mem hj, rfl⟩
        rw [← he] at hmem
        exact (findName_eq_none _ _ _).mp hf hmem
      cases lastValue rest np.name <;> simp [hne]
    | some i =>
      simp only [commitLoop, hf]
      obtain ⟨h1, h2, h3, h4, h5⟩ := ih { nvp with np := setValueAt nvp.np i e.2 }
      simp only [setValueAt_names] at h4
      refine ⟨h1, h2, h3, h4, ?_⟩
      intro j np hj
      have hfind : ∀ nm, IUFindNumber
          { nvp with np := setValueAt nvp.np i e.2 } nm = IUFindNumber nvp nm := by
        intro nm
        exact findName_congr _ _ _ _ (setValueAt_names _ _ _)
      obtain ⟨x, hx, hxn⟩ := findName_some_get _ _ _ _ hf
      have hj1 : (setValueAt nvp.np i e.2)[j]? =
          some (if j = i then ({ np with value := e.2 } : INumber α) else np) := by
        rw [setValueAt_get, hj]
        rfl
      have := h5 j _ hj1
      rw [this]
      simp only [hfind, lastValue_cons]
      by_cases hji : j = i
      · subst hji
        rw [hj] at hx
        cases hx
        have hf2 : IUFindNumber nvp np.name = some j := by rw [hxn]; exact hf
        simp only [if_true, hf2, hxn]
        cases lastValue rest e.1 <;> simp [hf]
      · by_cases hfj : IUFindNumber nvp np.name = some j
        · have hne : ¬ e.1 = np.name := by
            intro he
            rw [← he, hf] at hfj
            exact hji (Option.some.inj hfj).symm
          simp only [hji, if_false, hfj, if_true, hne]
          cases lastValue rest np.name <;> simp
        · simp [hji, hfj]

theorem checkLoop_eq_none {α : Type} [LT α] [DecidableRel (fun a b : α => a < b)]
    (g : α → String) (nvp : INumberVectorProperty α) (req : List (String × α)) :
    checkLoop g nvp req = none ↔
      ∀ e ∈ req, ¬ (unknownName nvp e ∨ rangeViolation nvp e) := by
  constructor
  · intro h e he hbad
    obtain ⟨err, herr⟩ := checkLoop_fails g nvp req ⟨e, he, hbad⟩
    rw [h] at herr
    cases herr
  · intro h
    induction req with
    | nil => rfl
    | cons x xs ih =>
      have hx := checkEntry_eq_none g nvp x (h x (by simp))
      simp only [checkLoop, hx]
      exact ih (fun e he => h e (by simp [he]))

theorem IUUpdateNumber_rc_zero {α : Type} [LT α] [DecidableRel (fun a b : α => a < b)]
    (g : α → String) (nvp : INumberVectorProperty α) (req : List (String × α)) :
    ((IUUpdateNumber g nvp req).rc = 0 ↔ checkLoop g nvp req = none) ∧
    (checkLoop g nvp req = none →
      (IUUpdateNumber g nvp req).vec = commitLoop nvp req ∧
      (IUUpdateNumber g nvp req).out = []) := by
  cases hc : checkLoop g nvp req with
  | none => simp [IUUpdateNumber, hc]
  | some err =>
    obtain ⟨st, m⟩ := err
    simp [IUUpdateNumber, hc]

/-- C21 (counterexample): the request gives `ELEVATION_OVERHEAD`, whose range
is 60 to 90, the value NaN.  Neither comparison of the first loop holds, so the
call returns 0 and stores NaN, although `60 <= NaN` and `NaN <= 90` are both
false: the return code is 0 and not every requested value lies within its
bounds. -/
theorem IUUpdateNumber_accepts_NaN :
    (IUUpdateNumber (fun _ => "") sampleDoubles [("ELEVATION_OVERHEAD", Double.NaN)]).rc = 0 ∧
    (IUUpdateNumber (fun _ => "") sampleDoubles
      [("ELEVATION_OVERHEAD", Double.NaN)]).vec.np.map (fun np => np.value) =
        [Double.NaN, Double.num 0] ∧
    ¬ (Double.num 60 ≤ Double.NaN) ∧ ¬ (Double.NaN ≤ Double.num 90) ∧
    ¬ ((IUUpdateNumber (fun _ => "") sampleDoubles
          [("ELEVATION_OVERHEAD", Double.NaN)]).rc = 0 ↔
        ∀ e ∈ [("ELEVATION_OVERHEAD", Double.NaN)], ∃ i np,
          IUFindNumber sampleDoubles e.1 = some i ∧ sampleDoubles.np[i]? = some np ∧
          np.min ≤ e.2 ∧ e.2 ≤ np.max) := by
  refine ⟨by decide, by decide, by decide, by decide, ?_⟩
  intro h
  obtain ⟨i, np, _, _, h1, _⟩ := h.mp (by decide) ("ELEVATION_OVERHEAD", Double.NaN) (by simp)
  have hn : ∀ a : Double, ¬ a ≤ Double.NaN := by
    intro a hle
    cases a <;> exact Bool.false_ne_true hle
  exact hn _ h1

/-- C21 (amended): the success postcondition of `IUUpdateNumber`.  The call
returns 0 exactly when every request entry names an element and carries a
value `v` for which neither `v < min` nor `v > max` holds for the element of
that name; for a request in which `<=` is the negation of `>` between every
value and every bound (no NaN among them) that is `min <= v <= max`.  On return
code 0 nothing is written to the client, device, name and group state are as
before, the first element of each name holds the last value the request gives
that name or its old value if the request does not name it, every other
element is as before, and with distinct element names the elements are the old
ones with only `value` replaced that way. -/
theorem IUUpdateNumber_success {α : Type} [LT α] [LE α] [DecidableRel (fun a b : α => a < b)]
    (g : α → String) (nvp : INumberVectorProperty α) (req : List (String × α)) :
    ((IUUpdateNumber g nvp req).rc = 0 ↔
      ∀ e ∈ req, ∃ i np, IUFindNumber nvp e.1 = some i ∧ nvp.np[i]? = some np ∧
        ¬ e.2 < np.min ∧ ¬ np.max < e.2) ∧
    ((∀ e ∈ req, ∀ np ∈ nvp.np,
        (np.min ≤ e.2 ↔ ¬ e.2 < np.min) ∧ (e.2 ≤ np.max ↔ ¬ np.max < e.2)) →
      ((IUUpdateNumber g nvp req).rc = 0 ↔
        ∀ e ∈ req, ∃ i np, IUFindNumber nvp e.1 = some i ∧ nvp.np[i]? = some np ∧
          np.min ≤ e.2 ∧ e.2 ≤ np.max)) ∧
    ((IUUpdateNumber g nvp req).rc = 0 →
      (IUUpdateNumber g nvp req).out = [] ∧
      (IUUpdateNumber g nvp req).vec.device = nvp.device ∧
      (IUUpdateNumber g nvp req).vec.name = nvp.name ∧
      (IUUpdateNumber g nvp req).vec.s = nvp.s ∧
      (∀ (j : Nat) (np : INumber α), nvp.np[j]? = some np →
        (IUUpdateNumber g nvp req).vec.np[j]? = some { np with value :=
          (if IUFindNumber nvp np.name = some j then (lastValue req np.name).getD np.value
          else np.value) }) ∧
      ((nvp.np.map (fun np => np.name)).Nodup →
        (IUUpdateNumber g nvp req).vec.np =
          nvp.np.map (fun np => { np with value := (lastValue req np.name).getD np.value }))) := by
  obtain ⟨hrc, hvec⟩ := IUUpdateNumber_rc_zero g nvp req
  have hiff : (IUUpdateNumber g nvp req).rc = 0 ↔
      ∀ e ∈ req, ∃ i np, IUFindNumber nvp e.1 = some i ∧ nvp.np[i]? = some np ∧
        ¬ e.2 < np.min ∧ ¬ np.max < e.2 := by
    rw [hrc, checkLoop_eq_none]
    constructor
    · intro h e he
      have hgood := h e he
      cases hf : IUFindNumber nvp e.1 with
      | none => exact absurd (Or.inl ((IUFindNumber_eq_none nvp e).mp hf)) hgood
      | some i =>
        obtain ⟨np, hnp, _⟩ := findName_some_get _ _ _ _ hf
        exact ⟨i, np, rfl, hnp,
          fun hlt => hgood (Or.inr ⟨i, np, hf, hnp, Or.inl hlt⟩),
          fun hlt => hgood (Or.inr ⟨i, np, hf, hnp, Or.inr hlt⟩)⟩
    · intro h e he hbad
      obtain ⟨i, np, hf, hnp, h1, h2⟩ := h e he
      rcases hbad with hu | ⟨i2, np2, hf2, hnp2, hr⟩
      · rw [← IUFindNumber_eq_none, hf] at hu
        cases hu
      · rw [hf] at hf2
        cases hf2
        rw [hnp] at hnp2
        cases hnp2
        rcases hr with hr | hr
        · exact h1 hr
        · exact h2 hr
  refine ⟨hiff, ?_, ?_⟩
  · intro hle
    rw [hiff]
    constructor
    · intro h e he
      obtain ⟨i, np, hf, hnp, h1, h2⟩ := h e he
      have hmem : np ∈ nvp.np := List.getElem?_mem hnp
      exact ⟨i, np, hf, hnp, (hle e he np hmem).1.mpr h1, (hle e he np hmem).2.mpr h2⟩
    · intro h e he
      obtain ⟨i, np, hf, hnp, h1, h2⟩ := h e he
      have hmem : np ∈ nvp.np := List.getElem?_mem hnp
      exact ⟨i, np, hf, hnp, (hle e he np hmem).1.mp h1, (hle e he np hmem).2.mp h2⟩
  · intro h0
    obtain ⟨hv, ho⟩ := hvec (hrc.mp h0)
    obtain ⟨c1, c2, c3, c4, c5⟩ := commitLoop_spec nvp req
    rw [hv]
    refine ⟨ho, c1, c2, c3, c5, ?_⟩
    intro hnd
    apply List.ext_getElem?
    intro j
    cases hj : nvp.np[j]? with
    | none =>
      have hlen : (commitLoop nvp req).np.length = nvp.np.length := by
        have := congrArg List.length c4
        simpa using this
      have h1 : nvp.np.length ≤ j := List.getElem?_eq_none_iff.mp hj
      have h2 : (commitLoop nvp req).np[j]? = none :=
        List.getElem?_eq_none_iff.mpr (by omega)
      simp [h2, hj]
    | some np =>
      have hf : IUFindNumber nvp np.name = some j := findName_nodup _ _ hnd j np hj
      rw [c5 j np hj]
      simp [hf, hj]

/-- Witness for C21 (amended): on the sample vector with values of type
`double`, a request that names both elements, one with a value inside its
bounds and one with NaN, returns 0 and replaces both values; and for the
request with the ordinary value alone, return code 0 gives `min <= v <= max`. -/
theorem IUUpdateNumber_success_witness :
    ((IUUpdateNumber (fun _ => "") sampleDoubles
        [("ELEVATION_HORIZON", Double.num (-10)), ("ELEVATION_OVERHEAD", Double.NaN)]).rc = 0 ↔
      ∀ e ∈ [("ELEVATION_HORIZON", Double.num (-10)), ("ELEVATION_OVERHEAD", Double.NaN)],
        ∃ i np, IUFindNumber sampleDoubles e.1 = some i ∧ sampleDoubles.np[i]? = some np ∧
          ¬ e.2 < np.min ∧ ¬ np.max < e.2) ∧
    (IUUpdateNumber (fun _ => "") sampleDoubles
        [("ELEVATION_HORIZON", Double.num (-10)), ("ELEVATION_OVERHEAD", Double.NaN)]).vec.np =
      sampleDoubles.np.map (fun np => { np with value :=
        (lastValue [("ELEVATION_HORIZON", Double.num (-10)),
          ("ELEVATION_OVERHEAD", Double.NaN)] np.name).getD np.value }) ∧
    (∀ e ∈ [("ELEVATION_HORIZON", Double.num (-10))],
      ∃ i np, IUFindNumber sampleDoubles e.1 = some i ∧ sampleDoubles.np[i]? = some np ∧
        np.min ≤ e.2 ∧ e.2 ≤ np.max) :=
  ⟨(IUUpdateNumber_success (fun _ => "") sampleDoubles
      [("ELEVATION_HORIZON", Double.num (-10)), ("ELEVATION_OVERHEAD", Double.NaN)]).1,
   ((IUUpdateNumber_success (fun _ => "") sampleDoubles
      [("ELEVATION_HORIZON", Double.num (-10)), ("ELEVATION_OVERHEAD", Double.NaN)]).2.2
      (by decide)).2.2.2.2.2 (by decide),
   ((IUUpdateNumber_success (fun _ => "") sampleDoubles
      [("ELEVATION_HORIZON", Double.num (-10))]).2.1 (by decide)).mp (by decide)⟩

/-! ### The table `roCheck` -/

theorem isPropDefined_eq_one (roCheck : List ROSC) (name : String) :
    isPropDefined roCheck name = 1 ↔ name ∈ roCheck.map (fun sc => sc.propName) := by
  induction roCheck with
  | nil => simp [isPropDefined]
  | cons sc rest ih =>
    by_cases h : name = sc.propName
    · simp [isPropDefined, h]
    · simp [isPropDefined, h, ih]

theorem registeredPerm_append (r : List ROSC) (sc : ROSC) (name : String) :
    registeredPerm (r ++ [sc]) name =
      match registeredPerm r name with
      | some p => some p
      | none => if sc.propName = name then some sc.perm else none := by
  induction r with
  | nil =>
    by_cases h : sc.propName = name <;> simp [registeredPerm, List.find?_cons, h]
  | cons x xs ih =>
    by_cases hx : x.propName = name
    · simp [registeredPerm, List.find?_cons, hx]
    · have h1 : registeredPerm (x :: xs ++ [sc]) name = registeredPerm (xs ++ [sc]) name := by
        simp [registeredPerm, List.find?_cons, hx]
      have h2 : registeredPerm (x :: xs) name = registeredPerm xs name := by
        simp [registeredPerm, List.find?_cons, hx]
      rw [h1, h2, ih]

theorem registeredPerm_eq_none (r : List ROSC) (name : String) :
    registeredPerm r name = none ↔ name ∉ r.map (fun sc => sc.propName) := by
  induction r with
  | nil => simp [registeredPerm]
  | cons x xs ih =>
    by_cases hx : x.propName = name
    · simp [registeredPerm, List.find?_cons, hx]
    · have hx2 : ¬ name = x.propName := fun e => hx e.symm
      have h2 : registeredPerm (x :: xs) name = registeredPerm xs name := by
        simp [registeredPerm, List.find?_cons, hx]
      rw [h2, ih]
      simp [hx2]

theorem registerProperty_spec (r : List ROSC) (n : String) (p : IPerm)
    (hnd : (r.map (fun sc => sc.propName)).Nodup) :
    ((registerProperty r n p).map (fun sc => sc.propName)).Nodup ∧
    (∀ m, m ∈ (registerProperty r n p).map (fun sc => sc.propName) ↔
      m ∈ r.map (fun sc => sc.propName) ∨ m = n) ∧
    (∀ m, registeredPerm (registerProperty r n p) m =
      match registeredPerm r m with
      | some q => some q
      | none => if n = m then some p else none) := by
  by_cases h0 : isPropDefined r n = 0
  · have hn : n ∉ r.map (fun sc => sc.propName) := (isPropDefined_eq_zero r n).mp h0
    have hreg : registerProperty r n p = r ++ [{ propName := n, perm := p }] := by
      simp [registerProperty, h0]
    rw [hreg]
    refine ⟨?_, ?_, ?_⟩
    · rw [List.map_append, List.nodup_append]
      refine ⟨hnd, by simp, ?_⟩
      intro a ha hb
      simp only [List.map_cons, List.map_nil, List.mem_singleton] at hb
      exact hn (hb ▸ ha)
    · intro m
      simp
    · intro m
      exact registeredPerm_append r _ m
  · have hn : n ∈ r.map (fun sc => sc.propName) := by
      by_contra hc
      exact h0 ((isPropDefined_eq_zero r n).mpr hc)
    have hreg : registerProperty r n p = r := by
      simp [registerProperty, h0]
    rw [hreg]
    refine ⟨hnd, ?_, ?_⟩
    · intro m
      constructor
      · exact Or.inl
      · rintro (h | h)
        · exact h
        · rw [h]
          exact hn
    · intro m
      cases hm : registeredPerm r m with
      | some q => rfl
      | none =>
        have hmn : m ∉ r.map (fun sc => sc.propName) := (registeredPerm_eq_none r m).mp hm
        have hne : ¬ n = m := fun e => hmn (e ▸ hn)
        simp [hne]

theorem RegistryCall_run_eq (r : List ROSC) (c : RegistryCall) :
    c.run r =
      match c.defines with
      | some d => registerProperty r d.1 d.2
      | none => r := by
  cases c <;> rfl

theorem runCalls_spec (calls : List RegistryCall) (r : List ROSC)
    (hnd : (r.map (fun sc => sc.propName)).Nodup) :
    ((runCalls r calls).map (fun sc => sc.propName)).Nodup ∧
    (∀ m, m ∈ (runCalls r calls).map (fun sc => sc.propName) ↔
      m ∈ r.map (fun sc => sc.propName) ∨
        m ∈ (calls.filterMap RegistryCall.defines).map (fun d => d.1)) ∧
    (∀ m, registeredPerm (runCalls r calls) m =
      match registeredPerm r m with
      | some q => some q
      | none => firstDefinition calls m) := by
  induction calls generalizing r with
  | nil =>
    refine ⟨hnd, by simp [runCalls], ?_⟩
    intro m
    cases hm : registeredPerm r m <;> simp [runCalls, firstDefinition, hm]
  | cons c rest ih =>
    have hrun : runCalls r (c :: rest) = runCalls (c.run r) rest := rfl
    rw [hrun, RegistryCall_run_eq]
    cases hd : c.defines with
    | none =>
      obtain ⟨i1, i2, i3⟩ := ih r hnd
      refine ⟨i1, ?_, ?_⟩
      · intro m
        rw [i2 m]
        simp [List.filterMap_cons, hd]
      · intro m
        rw [i3 m]
        simp [firstDefinition, List.filterMap_cons, hd]
    | some d =>
      obtain ⟨s1, s2, s3⟩ := registerProperty_spec r d.1 d.2 hnd
      obtain ⟨i1, i2, i3⟩ := ih (registerProperty r d.1 d.2) s1
      refine ⟨i1, ?_, ?_⟩
      · intro m
        rw [i2 m, s2 m]
        simp only [List.filterMap_cons, hd, List.map_cons, List.mem_cons]
        tauto
      · intro m
        rw [i3 m, s3 m]
        cases hm : registeredPerm r m with
        | some q => rfl
        | none =>
          by_cases hdm : d.1 = m
          · simp [firstDefinition, List.filterMap_cons, hd, List.find?_cons, hdm]
          · simp [firstDefinition, List.filterMap_cons, hd, List.find?_cons, hdm]

/-- C30: the registry invariant.  After any sequence of `IDDefText`,
`IDDefNumber`, `IDDefSwitch`, `IDDefBLOB` and `IDDelete` calls on the empty
table, no two entries of `roCheck` have the same name, `isPropDefined` returns
1 for the names defined so far and 0 for every other name, the permission
recorded for a name is the one of its first definition, and `IDDelete` leaves
the table as it is. -/
theorem roCheck_invariant (calls : List RegistryCall) :
    ((runCalls [] calls).map (fun sc => sc.propName)).Nodup ∧
    (∀ name, isPropDefined (runCalls [] calls) name = 1 ↔
      name ∈ (calls.filterMap RegistryCall.defines).map (fun d => d.1)) ∧
    (∀ name, name ∉ (calls.filterMap RegistryCall.defines).map (fun d => d.1) →
      isPropDefined (runCalls [] calls) name = 0) ∧
    (∀ name, registeredPerm (runCalls [] calls) name = firstDefinition calls name) ∧
    (∀ (dev : String) (name : Option String),
      runCalls [] (calls ++ [RegistryCall.IDDelete dev name]) = runCalls [] calls) := by
  obtain ⟨h1, h2, h3⟩ := runCalls_spec calls [] (by simp)
  refine ⟨h1, ?_, ?_, ?_, ?_⟩
  · intro name
    rw [isPropDefined_eq_one, h2 name]
    simp
  · intro name hn
    rw [isPropDefined_eq_zero, h2 name]
    simpa using hn
  · intro name
    rw [h3 name]
    rfl
  · intro dev name
    simp [runCalls, List.foldl_append, RegistryCall.run, IDDelete]

/-- Witness for C30: a property defined twice with different permissions, then
deleted. -/
theorem roCheck_invariant_witness :
    registeredPerm (runCalls [] [RegistryCall.IDDefNumber "MERIDIAN_LIMIT" IPerm.IP_RW,
      RegistryCall.IDDefSwitch "MERIDIAN_LIMIT" IPerm.IP_RO,
      RegistryCall.IDDelete "Pegasus NYX-101" (some "MERIDIAN_LIMIT")]) "MERIDIAN_LIMIT" =
      some IPerm.IP_RW ∧
    isPropDefined (runCalls [] [RegistryCall.IDDefNumber "MERIDIAN_LIMIT" IPerm.IP_RW,
      RegistryCall.IDDefSwitch "MERIDIAN_LIMIT" IPerm.IP_RO,
      RegistryCall.IDDelete "Pegasus NYX-101" (some "MERIDIAN_LIMIT")]) "FOCUS" = 0 :=
  ⟨((roCheck_invariant _).2.2.2.1 "MERIDIAN_LIMIT").trans (by decide),
   (roCheck_invariant _).2.2.1 "FOCUS" (by decide)⟩

/-- C24 (failing input): for the root tag "fooVector", which is none of the
tags `dispatch` knows, the value returned is 1, neither 0 nor -1, with
"Unknown command: fooVector" in `msg`, and `clientMsgCB` writes no line for
it; and for an update request naming a property that is not in the table the
value returned is -1 while `msg` is not written. -/
theorem dispatch_result_contract_broken :
    (dispatch sampleHelpers sampleRegistry { tag := "fooVector", att := [], el := [] }).rc = 1 ∧
    (dispatch sampleHelpers sampleRegistry { tag := "fooVector", att := [], el := [] }).msg =
      some "Unknown command: fooVector" ∧
    clientMsgCB_report "nyx" ""
      (dispatch sampleHelpers sampleRegistry { tag := "fooVector", att := [], el := [] }) = [] ∧
    (dispatch sampleHelpers sampleRegistry
      (sampleRequest "newNumberVector" "FOCUS_POSITION")).rc = -1 ∧
    (dispatch sampleHelpers sampleRegistry
      (sampleRequest "newNumberVector" "FOCUS_POSITION")).msg = none ∧
    (dispatch sampleHelpers sampleRegistry
      (sampleRequest "newNumberVector" "HORIZONTAL_COORD")).rc = -1 ∧
    (dispatch sampleHelpers sampleRegistry
      (sampleRequest "newNumberVector" "HORIZONTAL_COORD")).msg = none := by
  decide

/-- C29 (failing input): with the BLOB property `CCD1` registered read-only
by `IDDefBLOB`, an inbound `newBLOBVector` for `CCD1` is not rejected:
`dispatch` returns 0 and calls `ISNewBLOB`, while a `newNumberVector` for the
same name is rejected with -1 and no call. -/
theorem dispatch_blob_read_only_unchecked :
    registeredPerm sampleBlobRegistry "CCD1" = some IPerm.IP_RO ∧
    (dispatch sampleHelpers sampleBlobRegistry sampleBlobRequest).rc = 0 ∧
    (dispatch sampleHelpers sampleBlobRegistry sampleBlobRequest).calls =
      [DriverCall.ISNewBLOB "Pegasus NYX-101" "CCD1"
        [{ name := "CCD1", format := ".fits", size := 0, blobsize := 0, blob := "QUJD" }]] ∧
    (dispatch sampleHelpers sampleBlobRegistry (sampleRequest "newNumberVector" "CCD1")).rc = -1 ∧
    (dispatch sampleHelpers sampleBlobRegistry (sampleRequest "newNumberVector" "CCD1")).calls
      = [] := by
  decide

end INDI

namespace LX200NYX101

open INDI

/-! ### Motor-state classifier -/

theorem getline_length (s seg rest : List Char) (h : getline s = some (seg, rest)) :
    rest.length < s.length := by
  induction s generalizing seg rest with
  | nil => simp [getline] at h
  | cons c cs ih =>
    by_cases hc : c = ','
    · simp only [getline, hc, if_true, Option.some.injEq, Prod.mk.injEq] at h
      rw [← h.2]
      simp
    · cases hg : getline cs with
      | none =>
        simp only [getline, hc, if_false, hg, Option.some.injEq, Prod.mk.injEq] at h
        rw [← h.2]
        simp
      | some p =>
        obtain ⟨seg2, rest2⟩ := p
        simp only [getline, hc, if_false, hg, Option.some.injEq, Prod.mk.injEq] at h
        have := ih seg2 rest2 hg
        rw [← h.2]
        simp only [List.length_cons]
        omega

/-- The bound on the number of iterations in `seglist` is never reached: any
two bounds above the length of the stream give the same vector. -/
theorem readSegments_fuel (f1 f2 : Nat) (s : List Char) (h1 : s.length < f1)
    (h2 : s.length < f2) : readSegments f1 s = readSegments f2 s := by
  induction f1 generalizing f2 s with
  | zero => omega
  | succ n ih =>
    cases f2 with
    | zero => omega
    | succ m =>
      cases hg : getline s with
      | none => simp [readSegments, hg]
      | some p =>
        obtain ⟨seg, rest⟩ := p
        have hl := getline_length s seg rest hg
        simp only [readSegments, hg]
        rw [ih m rest (by omega) (by omega)]

/-- The vector `seglist` does not depend on the bound chosen for the loop. -/
theorem seglist_fuel (status : String) (n : Nat) (h : status.length < n) :
    readSegments n status.data = seglist status :=
  readSegments_fuel n (status.length + 1) status.data h (Nat.lt_succ_self _)

theorem motorStateOf_eight (t0 t1 t2 t3 t4 t5 t6 t7 : String) (rest : List String) :
    motorStateOf (t0 :: t1 :: t2 :: t3 :: t4 :: t5 :: t6 :: t7 :: rest) =
      some (if t1 = "OA" ∨ t2 = "OB" ∨ t3 = "GA" ∨ t4 = "GB" ∨ t5 = "OT" ∨ t6 = "PW"
              ∨ t7 = "GF" then "FAULT"
            else if t0 = "ST" then "Stationary" else "Moving") := by
  simp only [motorStateOf, fault, stationary, moving, List.getElem?_cons_zero,
    List.getElem?_cons_succ, Option.bind_some]
  by_cases h1 : t1 = "OA"
  · simp [h1]
  by_cases h2 : t2 = "OB"
  · simp [h1, h2]
  by_cases h3 : t3 = "GA"
  · simp [h1, h2, h3]
  by_cases h4 : t4 = "GB"
  · simp [h1, h2, h3, h4]
  by_cases h5 : t5 = "OT"
  · simp [h1, h2, h3, h4, h5]
  by_cases h6 : t6 = "PW"
  · simp [h1, h2, h3, h4, h5, h6]
  by_cases h7 : t7 = "GF"
  · simp [h1, h2, h3, h4, h5, h6, h7]
  by_cases h0 : t0 = "ST"
  · simp [h0, h1, h2, h3, h4, h5, h6, h7]
  · simp [h0, h1, h2, h3, h4, h5, h6, h7]

theorem motorStateOf_take (l : List String) : motorStateOf (l.take 8) = motorStateOf l := by
  simp [motorStateOf, List.getElem?_take]

/-- C5: the reference definition of the motor classifier.  When the token
vector of the diagnostic string has at least eight tokens `t0 .. t7`,
`GetMotorState` yields "FAULT" if `t1` is "OA", or `t2` is "OB", or `t3` is
"GA", or `t4` is "GB", or `t5` is "OT", or `t6` is "PW", or `t7` is "GF", and
otherwise "Stationary" when `t0` is "ST" and "Moving" when it is not; two
strings whose first eight tokens agree get the same result; and the three
sample strings classify as Stationary, Stationary and FAULT. -/
theorem GetMotorState_reference :
    (∀ (status : String) (t0 t1 t2 t3 t4 t5 t6 t7 : String) (rest : List String),
      seglist status = t0 :: t1 :: t2 :: t3 :: t4 :: t5 :: t6 :: t7 :: rest →
      GetMotorState status =
        some (if t1 = "OA" ∨ t2 = "OB" ∨ t3 = "GA" ∨ t4 = "GB" ∨ t5 = "OT" ∨ t6 = "PW"
                ∨ t7 = "GF" then "FAULT"
              else if t0 = "ST" then "Stationary" else "Moving")) ∧
    (∀ s1 s2 : String, (seglist s1).take 8 = (seglist s2).take 8 →
      GetMotorState s1 = GetMotorState s2) ∧
    GetMotorState "ST,OK,OK,OK,OK,OK,OK,OK" = some "Stationary" ∧
    GetMotorState "ST,OK,OK,OK,OK,OK,OK,OK,extra" = some "Stationary" ∧
    GetMotorState "SL,OA,OK,OK,OK,OK,OK,OK" = some "FAULT" := by
  refine ⟨?_, ?_, by decide, by decide, by decide⟩
  · intro status t0 t1 t2 t3 t4 t5 t6 t7 rest h
    rw [GetMotorState, h]
    exact motorStateOf_eight t0 t1 t2 t3 t4 t5 t6 t7 rest
  · intro s1 s2 h
    rw [GetMotorState, GetMotorState, ← motorStateOf_take (seglist s1),
      ← motorStateOf_take (seglist s2), h]

/-- Witness for C5: a nine-token string with a fault code in its own place. -/
theorem GetMotorState_reference_witness :
    GetMotorState "SL,OK,OK,OK,OK,OT,OK,OK,17" = some "FAULT" :=
  (GetMotorState_reference.1 "SL,OK,OK,OK,OK,OT,OK,OK,17"
    "SL" "OK" "OK" "OK" "OK" "OT" "OK" "OK" ["17"] (by decide)).trans (by decide)

/-- C6 (failing input): the empty string has no token and "ST" has one, so
`GetMotorState` reads `seglist[0]`, respectively `seglist[1]`, outside the
vector; the same happens for a seven-token string without a fault code. -/
theorem GetMotorState_short_out_of_range :
    seglist "" = [] ∧ GetMotorState "" = none ∧
    seglist "ST" = ["ST"] ∧ GetMotorState "ST" = none ∧
    (seglist "ST,OK,OK,OK,OK,OK,OK").length = 7 ∧
    GetMotorState "ST,OK,OK,OK,OK,OK,OK" = none := by
  decide

/-- C7 (counterexample): an eight-token string whose token 1 is the fault code
"OB" is classified "Stationary", not "FAULT". -/
theorem GetMotorState_misplaced_code :
    seglist "ST,OB,OK,OK,OK,OK,OK,OK" = ["ST", "OB", "OK", "OK", "OK", "OK", "OK", "OK"] ∧
    GetMotorState "ST,OB,OK,OK,OK,OK,OK,OK" = some "Stationary" := by
  decide

/-- C7 (amended): for a diagnostic string of eight tokens in which some token
among 1 to 7 equals the fault code of its own position ("OA" at 1, "OB" at 2,
"GA" at 3, "GB" at 4, "OT" at 5, "PW" at 6, "GF" at 7), `GetMotorState` yields
"FAULT", whatever token 0 is. -/
theorem GetMotorState_fault_own_position (status : String)
    (t0 t1 t2 t3 t4 t5 t6 t7 : String)
    (h : seglist status = [t0, t1, t2, t3, t4, t5, t6, t7])
    (hf : t1 = "OA" ∨ t2 = "OB" ∨ t3 = "GA" ∨ t4 = "GB" ∨ t5 = "OT" ∨ t6 = "PW"
      ∨ t7 = "GF") :
    GetMotorState status = some "FAULT" := by
  rw [GetMotorState, h, motorStateOf_eight, if_pos hf]

/-- Witness for C7 (amended): a moving motor with "GF" at position 7. -/
theorem GetMotorState_fault_own_position_witness :
    GetMotorState "SL,OK,OK,OK,OK,OK,OK,GF" = some "FAULT" :=
  (GetMotorState_fault_own_position "SL,OK,OK,OK,OK,OK,OK,GF"
    "SL" "OK" "OK" "OK" "OK" "OK" "OK" "GF" (by decide) (by decide))

/-! ### Status decoder -/

theorem scanStatus_append (a rest : List Char) (f : StatusFlags) (ha : '#' ∉ a) :
    scanStatus (a ++ rest) f = scanStatus rest (a.foldl (fun g c => scanChar c g) f) := by
  induction a generalizing f with
  | nil => rfl
  | cons c cs ih =>
    simp only [List.mem_cons, not_or] at ha
    have hc : ¬ c = '#' := fun h => ha.1 h.symm
    simp only [List.cons_append, scanStatus, hc, if_false, List.foldl_cons]
    exact ih _ ha.2

theorem scanChar_unrecognised (c : Char) (f : StatusFlags) (h : c ∉ recognised) :
    scanChar c f = f := by
  have hn : ∀ d ∈ recognised, ¬ c = d := fun d hd e => h (e ▸ hd)
  unfold scanChar
  simp only [if_neg (hn 'n' (by decide)), if_neg (hn 'N' (by decide)),
    if_neg (hn 'p' (by decide)), if_neg (hn 'P' (by decide)), if_neg (hn '(' (by decide)),
    if_neg (hn 'O' (by decide)), if_neg (hn 'k' (by decide)), if_neg (hn 'T' (by decide)),
    if_neg (hn 'W' (by decide)), if_neg (hn 'r' (by decide)), ite_self]

theorem foldl_unrecognised (a : List Char) (f : StatusFlags) (h : ∀ c ∈ a, c ∉ recognised) :
    a.foldl (fun g c => scanChar c g) f = f := by
  induction a generalizing f with
  | nil => rfl
  | cons c cs ih =>
    simp only [List.foldl_cons]
    rw [scanChar_unrecognised c f (h c (by simp))]
    exact ih f (fun d hd => h d (by simp [hd]))

theorem scanChar_IsSlewCompleted (c : Char) (f : StatusFlags) :
    (scanChar c f)._IsSlewCompleted = if c = 'N' then true else f._IsSlewCompleted := by
  unfold scanChar
  simp only [apply_ite StatusFlags._IsSlewCompleted, ite_self]
  by_cases h1 : c = 'n'
  · subst h1
    rfl
  · simp only [if_neg h1]

theorem scanChar_IsParked (c : Char) (f : StatusFlags) :
    (scanChar c f)._IsParked =
      if c = 'p' then false else if c = 'P' then true else f._IsParked := by
  unfold scanChar
  simp only [apply_ite StatusFlags._IsParked, ite_self]
  by_cases h1 : c = 'n'
  · subst h1
    rfl
  by_cases h2 : c = 'N'
  · subst h2
    rfl
  simp only [if_neg h1, if_neg h2]

theorem scanChar_parked_keep (c : Char) (f : StatusFlags) (hc : c ≠ 'p')
    (hf : f._IsParked = true) : (scanChar c f)._IsParked = true := by
  rw [scanChar_IsParked]
  simp [hc, hf]

theorem foldl_parked_keep (b : List Char) (f : StatusFlags) (hb : 'p' ∉ b)
    (hf : f._IsParked = true) : (b.foldl (fun g c => scanChar c g) f)._IsParked = true := by
  induction b generalizing f with
  | nil => exact hf
  | cons c cs ih =>
    simp only [List.mem_cons, not_or] at hb
    simp only [List.foldl_cons]
    exact ih _ hb.2 (scanChar_parked_keep c f (fun h => hb.1 h.symm) hf)

theorem scanChar_slew (c : Char) (f : StatusFlags)
    (h : (scanChar c f)._IsSlewCompleted = true) : f._IsSlewCompleted = true ∨ c = 'N' := by
  rw [scanChar_IsSlewCompleted] at h
  by_cases hN : c = 'N'
  · exact Or.inr hN
  · simp only [hN, if_false] at h
    exact Or.inl h

theorem scanChar_parked (c : Char) (f : StatusFlags)
    (h : (scanChar c f)._IsParked = true) : f._IsParked = true ∨ c = 'P' := by
  rw [scanChar_IsParked] at h
  by_cases hP : c = 'P'
  · exact Or.inr hP
  · by_cases hp : c = 'p'
    · simp [hp] at h
    · simp only [hp, hP, if_false] at h
      exact Or.inl h

theorem scanStatus_slew (buf : List Char) (f0 f : StatusFlags)
    (h : scanStatus buf f0 = some f) (hs : f._IsSlewCompleted = true) :
    f0._IsSlewCompleted = true ∨ 'N' ∈ buf.takeWhile (fun c => c != '#') := by
  induction buf generalizing f0 with
  | nil => simp [scanStatus] at h
  | cons c cs ih =>
    by_cases hc : c = '#'
    · simp only [scanStatus, hc, if_true, Option.some.injEq] at h
      subst h
      exact Or.inl hs
    · simp only [scanStatus, hc, if_false] at h
      have htw : List.takeWhile (fun c => c != '#') (c :: cs)
          = c :: List.takeWhile (fun c => c != '#') cs := by
        simp [List.takeWhile_cons, hc]
      rw [htw]
      rcases ih _ h with h1 | h1
      · rcases scanChar_slew c f0 h1 with h2 | h2
        · exact Or.inl h2
        · exact Or.inr (by simp [h2])
      · exact Or.inr (List.mem_cons_of_mem _ h1)

theorem scanStatus_parked (buf : List Char) (f0 f : StatusFlags)
    (h : scanStatus buf f0 = some f) (hs : f._IsParked = true) :
    f0._IsParked = true ∨ 'P' ∈ buf.takeWhile (fun c => c != '#') := by
  induction buf generalizing f0 with
  | nil => simp [scanStatus] at h
  | cons c cs ih =>
    by_cases hc : c = '#'
    · simp only [scanStatus, hc, if_true, Option.some.injEq] at h
      subst h
      exact Or.inl hs
    · simp only [scanStatus, hc, if_false] at h
      have htw : List.takeWhile (fun c => c != '#') (c :: cs)
          = c :: List.takeWhile (fun c => c != '#') cs := by
        simp [List.takeWhile_cons, hc]
      rw [htw]
      rcases ih _ h with h1 | h1
      · rcases scanChar_parked c f0 h1 with h2 | h2
        · exact Or.inl h2
        · exact Or.inr (by simp [h2])
      · exact Or.inr (List.mem_cons_of_mem _ h1)

/-- C8 (counterexample): the status strings "Pp#" and "#P" contain the
character P and decode with `_IsParked` false. -/
theorem decodeStatus_P_then_p :
    'P' ∈ "Pp#".data ∧
    (decodeStatus (some "Pp#".data)).map (fun f => f._IsParked) = some false ∧
    'P' ∈ "#P".data ∧
    (decodeStatus (some "#P".data)).map (fun f => f._IsParked) = some false := by
  decide

/-- C8 (amended): for every status array in which a P stands before the first
`#` with no p between that P and the `#`, the decoder yields a snapshot with
`_IsParked` true, whatever the other characters are. -/
theorem decodeStatus_parked (a b c : List Char) (ha : '#' ∉ a) (hb : '#' ∉ b)
    (hp : 'p' ∉ b) :
    ∃ f, decodeStatus (some (a ++ 'P' :: (b ++ '#' :: c))) = some f ∧ f._IsParked = true := by
  refine ⟨b.foldl (fun g c => scanChar c g)
    (scanChar 'P' (a.foldl (fun g c => scanChar c g) initialFlags)), ?_, ?_⟩
  · simp only [decodeStatus]
    rw [scanStatus_append a _ _ ha]
    have hP : ¬ 'P' = '#' := by decide
    simp only [scanStatus, hP, if_false]
    rw [scanStatus_append b _ _ hb]
    simp only [scanStatus, if_true]
  · apply foldl_parked_keep _ _ hp
    rfl

/-- Witness for C8 (amended): "nNpP#". -/
theorem decodeStatus_parked_witness :
    ∃ f, decodeStatus (some ("nNp".data ++ 'P' :: ("".data ++ '#' :: "".data))) = some f ∧
      f._IsParked = true :=
  decodeStatus_parked "nNp".data "".data "".data (by decide) (by decide) (by decide)

/-- C9: the conservative baseline.  The locals start as tracking, slew not
complete, not parked, pier side unknown, sidereal, refraction off; that is the
snapshot when the `:GU#` exchange fails, and when no recognised character
stands before the terminator; and in every decoded snapshot `_IsSlewCompleted`
and `_IsParked` are true only if an N, respectively a P, stands before the
terminator. -/
theorem decodeStatus_baseline :
    initialFlags =
      { _IsTracking := true, _IsSlewCompleted := false, _IsParked := false,
        _DoesRefractionComp := false, _PierSide := TelescopePierSide.PIER_UNKNOWN,
        _TrackingMode := NYXTelescopeTrackMode.TRACK_SIDEREAL } ∧
    decodeStatus none = some initialFlags ∧
    decodeStatus (some ['#']) = some initialFlags ∧
    (∀ a b : List Char, '#' ∉ a → (∀ c ∈ a, c ∉ recognised) →
      decodeStatus (some (a ++ '#' :: b)) = some initialFlags) ∧
    (∀ (buf : List Char) (f : StatusFlags), decodeStatus (some buf) = some f →
      (f._IsSlewCompleted = true → 'N' ∈ buf.takeWhile (fun c => c != '#')) ∧
      (f._IsParked = true → 'P' ∈ buf.takeWhile (fun c => c != '#'))) := by
  refine ⟨rfl, rfl, by decide, ?_, ?_⟩
  · intro a b ha hrec
    simp only [decodeStatus]
    rw [scanStatus_append a _ _ ha, foldl_unrecognised a _ hrec]
    simp [scanStatus]
  · intro buf f h
    simp only [decodeStatus] at h
    constructor
    · intro hs
      rcases scanStatus_slew buf _ f h hs with h1 | h1
      · simp [initialFlags] at h1
      · exact h1
    · intro hs
      rcases scanStatus_parked buf _ f h hs with h1 | h1
      · simp [initialFlags] at h1
      · exact h1

/-- Witness for C9: a response made of characters without a `case`. -/
theorem decodeStatus_baseline_witness :
    decodeStatus (some ("xyz".data ++ '#' :: "NP".data)) = some initialFlags :=
  decodeStatus_baseline.2.2.2.1 "xyz".data "NP".data (by decide) (by decide)

/-! ### Track state -/

/-- C10: rule 1 and the park scenario.  From state Slewing a snapshot with
`_IsSlewCompleted` true gives Tracking, whatever its other flags and the
tracking switch are; from state Tracking a snapshot with `_IsParked` true gives
Parked. -/
theorem trackStateStep_slew_complete_and_park :
    (∀ (sw : ISState) (f : StatusFlags), f._IsSlewCompleted = true →
      trackStateStep TelescopeStatus.SCOPE_SLEWING sw f = TelescopeStatus.SCOPE_TRACKING) ∧
    (∀ (sw : ISState) (f : StatusFlags), f._IsParked = true →
      trackStateStep TelescopeStatus.SCOPE_TRACKING sw f = TelescopeStatus.SCOPE_PARKED) := by
  constructor
  · intro sw f h
    simp [trackStateStep, h]
  · intro sw f h
    simp [trackStateStep, h, SetParked]

/-- Witness for C10: a snapshot that is both slew-complete and parked. -/
theorem trackStateStep_slew_complete_and_park_witness :
    trackStateStep TelescopeStatus.SCOPE_SLEWING ISState.ISS_OFF
      { initialFlags with _IsSlewCompleted := true, _IsParked := true }
      = TelescopeStatus.SCOPE_TRACKING ∧
    trackStateStep TelescopeStatus.SCOPE_TRACKING ISState.ISS_ON
      { initialFlags with _IsParked := true } = TelescopeStatus.SCOPE_PARKED :=
  ⟨trackStateStep_slew_complete_and_park.1 _ _ rfl,
   trackStateStep_slew_complete_and_park.2 _ _ rfl⟩

/-- C11 (counterexample): in state Slewing a snapshot with `_IsParked` true and
`_IsSlewCompleted` false leaves the state Slewing. -/
theorem trackStateStep_slewing_ignores_parked :
    trackStateStep TelescopeStatus.SCOPE_SLEWING ISState.ISS_ON
      { initialFlags with _IsParked := true } = TelescopeStatus.SCOPE_SLEWING := by
  decide

/-- C11 (amended): for every current state other than Parked and Slewing and
every snapshot with `_IsParked` true, the new state is Parked; this covers
Idle, Tracking and Parking.  In state Slewing only `_IsSlewCompleted` is
consulted: the new state is Tracking when it is true and Slewing when it is
false, whatever the parked flag, the tracking flag and the tracking switch
are. -/
theorem trackStateStep_parked_wins :
    (∀ (ts : TelescopeStatus) (sw : ISState) (f : StatusFlags),
      ts ≠ TelescopeStatus.SCOPE_PARKED → ts ≠ TelescopeStatus.SCOPE_SLEWING →
      f._IsParked = true → trackStateStep ts sw f = TelescopeStatus.SCOPE_PARKED) ∧
    (∀ (sw : ISState) (f : StatusFlags),
      trackStateStep TelescopeStatus.SCOPE_SLEWING sw f =
        if f._IsSlewCompleted = true then TelescopeStatus.SCOPE_TRACKING
        else TelescopeStatus.SCOPE_SLEWING) ∧
    (∀ (sw sw2 : ISState) (f f2 : StatusFlags), f._IsSlewCompleted = f2._IsSlewCompleted →
      trackStateStep TelescopeStatus.SCOPE_SLEWING sw f =
        trackStateStep TelescopeStatus.SCOPE_SLEWING sw2 f2) := by
  refine ⟨?_, ?_, ?_⟩
  · intro ts sw f hp hs h
    simp [trackStateStep, hp, hs, h, SetParked]
  · intro sw f
    simp [trackStateStep]
  · intro sw sw2 f f2 h
    simp [trackStateStep, h]

/-- Witness for C11 (amended): a park reported while Parking gives Parked, and
in state Slewing two snapshots that differ in everything but the slew-complete
flag give the same state. -/
theorem trackStateStep_parked_wins_witness :
    trackStateStep TelescopeStatus.SCOPE_PARKING ISState.ISS_OFF
      { initialFlags with _IsParked := true } = TelescopeStatus.SCOPE_PARKED ∧
    trackStateStep TelescopeStatus.SCOPE_SLEWING ISState.ISS_ON
        { initialFlags with _IsParked := true, _IsTracking := false } =
      trackStateStep TelescopeStatus.SCOPE_SLEWING ISState.ISS_OFF initialFlags :=
  ⟨trackStateStep_parked_wins.1 _ _ _ (by decide) (by decide) rfl,
   trackStateStep_parked_wins.2.2 _ _ _ _ rfl⟩

/-- C12: rule 3.  In a state other than Slewing, when the state is Parked or
the snapshot has `_IsParked` false, the new state is Tracking or Idle after the
snapshot's tracking flag if that flag differs from "the tracking switch is ON",
and the old state if they agree. -/
theorem trackStateStep_rule3 (ts : TelescopeStatus) (sw : ISState) (f : StatusFlags)
    (hs : ts ≠ TelescopeStatus.SCOPE_SLEWING)
    (h2 : ts = TelescopeStatus.SCOPE_PARKED ∨ f._IsParked = false) :
    trackStateStep ts sw f =
      if decide (sw = ISState.ISS_ON) ≠ f._IsTracking then
        (if f._IsTracking = true then TelescopeStatus.SCOPE_TRACKING
         else TelescopeStatus.SCOPE_IDLE)
      else ts := by
  rcases h2 with h2 | h2
  · simp [trackStateStep, h2]
  · simp [trackStateStep, hs, h2]

/-- Witness for C12: Idle with the switch OFF and a tracking snapshot. -/
theorem trackStateStep_rule3_witness :
    trackStateStep TelescopeStatus.SCOPE_IDLE ISState.ISS_OFF initialFlags =
      TelescopeStatus.SCOPE_TRACKING :=
  (trackStateStep_rule3 TelescopeStatus.SCOPE_IDLE ISState.ISS_OFF initialFlags
    (by decide) (Or.inr rfl)).trans (by decide)

/-! ### Status decoder: terminator and unknown characters -/

theorem decodeStatus_terminated (a b : List Char) (ha : '#' ∉ a) :
    decodeStatus (some (a ++ '#' :: b)) =
      some (a.foldl (fun g c => scanChar c g) initialFlags) := by
  simp only [decodeStatus]
  rw [scanStatus_append a _ _ ha]
  simp [scanStatus]

theorem foldl_filter_recognised (a : List Char) (f : StatusFlags) :
    (a.filter (fun c => decide (c ∈ recognised))).foldl (fun g c => scanChar c g) f =
      a.foldl (fun g c => scanChar c g) f := by
  induction a generalizing f with
  | nil => rfl
  | cons c cs ih =>
    by_cases hc : c ∈ recognised
    · simp only [List.filter_cons, hc, decide_True, if_true, List.foldl_cons]
      exact ih _
    · simp only [List.filter_cons, hc, decide_False, List.foldl_cons]
      rw [scanChar_unrecognised c f hc]
      exact ih f

/-- C13: unrecognised status characters are ignored.  For a status array
`a ++ # ++ b` with no `#` in `a`, removing from `a` every character outside
the recognised set leaves the decoded snapshot the same. -/
theorem decodeStatus_ignores_unrecognised (a b : List Char) (ha : '#' ∉ a) :
    decodeStatus (some (a.filter (fun c => decide (c ∈ recognised)) ++ '#' :: b)) =
      decodeStatus (some (a ++ '#' :: b)) := by
  have hf : '#' ∉ a.filter (fun c => decide (c ∈ recognised)) :=
    fun h => ha (List.mem_filter.mp h).1
  rw [decodeStatus_terminated _ b hf, decodeStatus_terminated a b ha,
    foldl_filter_recognised]

/-- Witness for C13: "xNyPz#" decodes as "NP#" does. -/
theorem decodeStatus_ignores_unrecognised_witness :
    decodeStatus (some ("xNyPz".data.filter (fun c => decide (c ∈ recognised)) ++ '#' :: [])) =
      decodeStatus (some ("xNyPz".data ++ '#' :: [])) :=
  decodeStatus_ignores_unrecognised "xNyPz".data [] (by decide)

/-- C14: scanning stops at the terminator.  For `a` without `#` and any `b`,
the array `a ++ # ++ b` decodes to the same snapshot as `a ++ #`, a snapshot
that `a` alone determines. -/
theorem decodeStatus_stops_at_terminator (a b : List Char) (ha : '#' ∉ a) :
    decodeStatus (some (a ++ '#' :: b)) = decodeStatus (some (a ++ ['#'])) ∧
    decodeStatus (some (a ++ '#' :: b)) =
      some (a.foldl (fun g c => scanChar c g) initialFlags) := by
  rw [decodeStatus_terminated a b ha, decodeStatus_terminated a [] ha]
  exact ⟨rfl, rfl⟩

/-- Witness for C14: what follows the terminator of "nN#" is not read. -/
theorem decodeStatus_stops_at_terminator_witness :
    decodeStatus (some ("nN".data ++ '#' :: "PTr".data)) =
      decodeStatus (some ("nN".data ++ ['#'])) :=
  (decodeStatus_stops_at_terminator "nN".data "PTr".data (by decide)).1

theorem scanStatus_no_terminator (buf : List Char) (f : StatusFlags) (h : '#' ∉ buf) :
    scanStatus buf f = none := by
  induction buf generalizing f with
  | nil => rfl
  | cons c cs ih =>
    simp only [List.mem_cons, not_or] at h
    have hc : ¬ c = '#' := fun e => h.1 e.symm
    simp only [scanStatus, hc, if_false]
    exact ih _ h.2

theorem decodeStatus_no_terminator (buf : List Char) (h : '#' ∉ buf) :
    decodeStatus (some buf) = none := by
  simp only [decodeStatus]
  exact scanStatus_no_terminator buf _ h

theorem tty_nread_section_ok (stop : Char) (n : Nat) (wire res buf : List Char)
    (h : tty_nread_section stop n wire res = (true, buf)) :
    ∃ a rest, stop ∉ a ∧ wire = a ++ stop :: rest ∧
      buf = a ++ stop :: res.drop (a.length + 1) := by
  induction n generalizing wire res buf with
  | zero => simp [tty_nread_section] at h
  | succ m ih =>
    cases wire with
    | nil => simp [tty_nread_section] at h
    | cons c w =>
      by_cases hc : c = stop
      · simp only [tty_nread_section, hc, if_true, Prod.mk.injEq, true_and] at h
        refine ⟨[], w, by simp, by simp [hc], ?_⟩
        rw [← h]
        simp
      · simp only [tty_nread_section, hc, if_false, Prod.mk.injEq] at h
        obtain ⟨h1, h2⟩ := h
        obtain ⟨a, rest, ha, hw, hb⟩ := ih w res.tail _ (Prod.ext h1 rfl)
        refine ⟨c :: a, rest, ?_, ?_, ?_⟩
        · simp only [List.mem_cons, not_or]
          exact ⟨fun e => hc e.symm, ha⟩
        · simp [hw]
        · subst h2
          have hd : List.drop (a.length + 1) res.tail = List.drop (a.length + 1 + 1) res := by
            cases res <;> simp
          simp only [List.cons_append, List.length_cons, List.cons.injEq, true_and]
          exact hb.trans (by rw [hd])

theorem sendCommand_some (n : Nat) (writeOk : Bool) (wire buf : List Char)
    (h : sendCommand n writeOk wire = some buf) :
    ∃ a rest, '#' ∉ a ∧ wire = a ++ '#' :: rest ∧
      buf = a ++ '#' :: List.replicate (n - (a.length + 1)) (Char.ofNat 0) := by
  unfold sendCommand at h
  cases writeOk with
  | false => simp at h
  | true =>
    simp only [Bool.true_eq_false, if_false] at h
    cases hr : tty_nread_section DRIVER_STOP_CHAR n wire (List.replicate n (Char.ofNat 0)) with
    | mk ok res =>
      rw [hr] at h
      cases ok with
      | false => simp at h
      | true =>
        simp only [Option.some.injEq] at h
        subst h
        obtain ⟨a, rest, ha, hw, hb⟩ := tty_nread_section_ok _ _ _ _ _ hr
        refine ⟨a, rest, ha, hw, ?_⟩
        rw [hb]
        simp [DRIVER_STOP_CHAR]

/-- C15 (counterexample): the mount answers "NP" and no terminator arrives
before the timeout.  The array then holds N, P and NUL and no `#`;
`sendCommand` returns false, the scan is not run, and the snapshot is the
baseline, with slew not complete and not parked; the snapshot built from the
characters N and P has both true. -/
theorem decodeStatus_unterminated_discarded :
    tty_nread_section DRIVER_STOP_CHAR 64 "NP".data (List.replicate 64 (Char.ofNat 0)) =
      (false, "NP".data ++ List.replicate 62 (Char.ofNat 0)) ∧
    '#' ∉ "NP".data ++ List.replicate 62 (Char.ofNat 0) ∧
    sendCommand 64 true "NP".data = none ∧
    decodeStatus (sendCommand 64 true "NP".data) = some initialFlags ∧
    "NP".data.foldl (fun g c => scanChar c g) initialFlags =
      { initialFlags with _IsSlewCompleted := true, _IsParked := true } ∧
    decodeStatus (sendCommand 64 true "NP".data) ≠
      some ("NP".data.foldl (fun g c => scanChar c g) initialFlags) := by
  decide

/-- C15 (amended): a missing terminator is not fatal.  When the response to
`:GU#` arrives without `#`, `sendCommand` returns false, the scan is not run on
the array and the snapshot is the baseline, whatever characters arrived.  An
array that `sendCommand` hands to the scan holds the characters received up to
the first `#`, that `#`, and NUL after it, and the scan ends at that `#` with
the snapshot built from the characters before it.  So for every exchange the
decoder returns a snapshot without reading outside the array. -/
theorem decodeStatus_missing_terminator (DRIVER_LEN : Nat) (writeOk : Bool)
    (wire : List Char) :
    ('#' ∉ wire → sendCommand DRIVER_LEN writeOk wire = none ∧
      decodeStatus (sendCommand DRIVER_LEN writeOk wire) = some initialFlags) ∧
    (∀ buf, sendCommand DRIVER_LEN writeOk wire = some buf →
      ∃ a rest, '#' ∉ a ∧ wire = a ++ '#' :: rest ∧
        buf = a ++ '#' :: List.replicate (DRIVER_LEN - (a.length + 1)) (Char.ofNat 0) ∧
        decodeStatus (some buf) = some (a.foldl (fun g c => scanChar c g) initialFlags)) ∧
    (decodeStatus (sendCommand DRIVER_LEN writeOk wire)).isSome = true := by
  have h2 : ∀ buf, sendCommand DRIVER_LEN writeOk wire = some buf →
      ∃ a rest, '#' ∉ a ∧ wire = a ++ '#' :: rest ∧
        buf = a ++ '#' :: List.replicate (DRIVER_LEN - (a.length + 1)) (Char.ofNat 0) ∧
        decodeStatus (some buf) = some (a.foldl (fun g c => scanChar c g) initialFlags) := by
    intro buf hb
    obtain ⟨a, rest, ha, hw, he⟩ := sendCommand_some _ _ _ _ hb
    refine ⟨a, rest, ha, hw, he, ?_⟩
    rw [he]
    exact decodeStatus_terminated a _ ha
  have h1 : '#' ∉ wire → sendCommand DRIVER_LEN writeOk wire = none := by
    intro hw
    cases hs : sendCommand DRIVER_LEN writeOk wire with
    | none => rfl
    | some buf =>
      obtain ⟨a, rest, _, hwire, _⟩ := sendCommand_some _ _ _ _ hs
      exact absurd (by simp [hwire]) hw
  refine ⟨?_, h2, ?_⟩
  · intro hw
    refine ⟨h1 hw, ?_⟩
    rw [h1 hw]
    rfl
  · cases hs : sendCommand DRIVER_LEN writeOk wire with
    | none => rfl
    | some buf =>
      obtain ⟨a, rest, _, _, _, hd⟩ := h2 buf hs
      rw [hd]
      rfl

/-- Witness for C15 (amended): the characters "nNP" without a terminator give
the baseline, and the response "nNP#" is decoded. -/
theorem decodeStatus_missing_terminator_witness :
    (sendCommand 64 true "nNP".data = none ∧
      decodeStatus (sendCommand 64 true "nNP".data) = some initialFlags) ∧
    (decodeStatus (sendCommand 64 true "nNP#".data)).isSome = true :=
  ⟨(decodeStatus_missing_terminator 64 true "nNP".data).1 (by decide),
   (decodeStatus_missing_terminator 64 true "nNP#".data).2.2⟩

/-! ### The poll cycle -/

theorem trackStateBlock_frame {α : Type} (f : StatusFlags) (r : Run α) :
    (trackStateBlock f (publishFlags f r)).st.TrackState =
      trackStateStep r.st.TrackState r.st.TrackStateS_ENABLED f ∧
    (trackStateBlock f (publishFlags f r)).st.MeridianLimitNP = r.st.MeridianLimitNP ∧
    (trackStateBlock f (publishFlags f r)).st.pierSide = r.st.pierSide ∧
    (trackStateBlock f (publishFlags f r)).st.RAMotorStatusTP = r.st.RAMotorStatusTP ∧
    (trackStateBlock f (publishFlags f r)).st.DECMotorStatusTP = r.st.DECMotorStatusTP ∧
    (trackStateBlock f (publishFlags f r)).st.RAHardLimitTP_s = r.st.RAHardLimitTP_s ∧
    (trackStateBlock f (publishFlags f r)).st.AltAzNP_s = r.st.AltAzNP_s :=
  ⟨rfl, rfl, rfl, rfl, rfl, rfl, rfl⟩

theorem trackStateBlock_log {α : Type} (f : StatusFlags) (st : DriverState α) :
    ∀ e ∈ (trackStateBlock f (publishFlags f
      { st := st, log := [Event.sendCommand ":GU#"] })).log, isLaterStep e = false := by
  intro e he
  simp only [trackStateBlock, publishFlags, List.mem_append, List.mem_cons,
    List.mem_singleton, List.not_mem_nil, or_false] at he
  rcases he with (rfl | rfl | rfl) | he
  · simp [isLaterStep]
  · simp [isLaterStep]
  · rfl
  · split at he
    · simp only [List.mem_singleton] at he
      subst he
      rfl
    · simp at he

/-- C16: when the read of RA or of DEC fails in a poll of a connected driver,
`ReadScopeStatus` returns false with the state of `EqNP` Alert; the track
state is the one the transition block produced from the decoded snapshot;
no call of a later step (pier side, `NewRaDec`, motor status, hard limit,
Alt/Az, meridian) is made, and what those steps write is as it was. -/
theorem ReadScopeStatus_coordinate_read_failure {α : Type} (to_string : α → String)
    (ne : α → α → Bool) (st : DriverState α) (io : Mount α) (f : StatusFlags)
    (hc : st.isConnected = true) (hd : decodeStatus io.GU = some f)
    (hfail : io.RA = none ∨ io.DEC = none) :
    ∃ p, ReadScopeStatus to_string ne st io = some p ∧ p.ret = false ∧
      p.st.EqNP_s = IPState.IPS_ALERT ∧
      p.st.TrackState = trackStateStep st.TrackState st.TrackStateS_ENABLED f ∧
      (∀ e ∈ p.log, isLaterStep e = false) ∧
      p.st.pierSide = st.pierSide ∧
      p.st.RAMotorStatusTP = st.RAMotorStatusTP ∧
      p.st.DECMotorStatusTP = st.DECMotorStatusTP ∧
      p.st.RAHardLimitTP_s = st.RAHardLimitTP_s ∧
      p.st.AltAzNP_s = st.AltAzNP_s ∧
      p.st.MeridianLimitNP = st.MeridianLimitNP := by
  have hlog := trackStateBlock_log f st
  cases hra : io.RA with
  | none =>
    refine ⟨_, by simp [ReadScopeStatus, pollHead, hc, hd, readEqBlock, hra]; rfl, rfl, rfl,
      rfl, ?_, rfl, rfl, rfl, rfl, rfl, rfl⟩
    intro e he
    simp only [List.mem_append, List.mem_cons, List.mem_singleton, List.not_mem_nil,
      or_false] at he
    rcases he with he | rfl | rfl
    · exact hlog e he
    · rfl
    · rfl
  | some ra =>
    have hdec : io.DEC = none := by
      rcases hfail with h | h
      · rw [hra] at h
        cases h
      · exact h
    refine ⟨_, by simp [ReadScopeStatus, pollHead, hc, hd, readEqBlock, hra, hdec]; rfl, rfl,
      rfl, rfl, ?_, rfl, rfl, rfl, rfl, rfl, rfl⟩
    intro e he
    simp only [List.mem_append, List.mem_cons, List.mem_singleton, List.not_mem_nil,
      or_false] at he
    rcases he with he | rfl | rfl | rfl
    · exact hlog e he
    · rfl
    · rfl
    · rfl

theorem keepsMeridian_start {α : Type} (st : DriverState α) (f : StatusFlags) :
    keepsMeridian st (trackStateBlock f (publishFlags f
      { st := st, log := [Event.sendCommand ":GU#"] })) := by
  refine ⟨rfl, ?_⟩
  intro c hc
  simp only [trackStateBlock, publishFlags, List.mem_append, List.mem_cons,
    List.mem_singleton, List.not_mem_nil, or_false] at hc
  rcases hc with (hc | hc | hc) | hc
  · cases hc
    decide
  · cases hc
  · cases hc
  · split at hc
    · simp at hc
    · simp at hc

theorem keepsMeridian_readEq {α : Type} (st : DriverState α) (io : Mount α) (r : Run α)
    (h : keepsMeridian st r) : keepsMeridian st (readEqBlock io r).1 := by
  obtain ⟨h1, h2⟩ := h
  unfold readEqBlock
  cases io.RA with
  | none =>
    refine ⟨h1, ?_⟩
    intro c hc
    simp only [List.mem_append, List.mem_cons, List.mem_singleton, List.not_mem_nil,
      or_false] at hc
    rcases hc with hc | hc | hc
    · exact h2 c hc
    · cases hc
    · cases hc
  | some ra =>
    cases io.DEC with
    | none =>
      refine ⟨h1, ?_⟩
      intro c hc
      simp only [List.mem_append, List.mem_cons, List.mem_singleton, List.not_mem_nil,
        or_false] at hc
      rcases hc with hc | hc | hc | hc
      · exact h2 c hc
      · cases hc
      · cases hc
      · cases hc
    | some dec =>
      refine ⟨h1, ?_⟩
      intro c hc
      simp only [List.mem_append, List.mem_cons, List.mem_singleton, List.not_mem_nil,
        or_false] at hc
      rcases hc with hc | hc | hc
      · exact h2 c hc
      · cases hc
      · cases hc

theorem keepsMeridian_pier {α : Type} (st : DriverState α) (io : Mount α) (r : Run α)
    (h : keepsMeridian st r) : keepsMeridian st (pierBlock io r) := by
  obtain ⟨h1, h2⟩ := h
  unfold pierBlock
  by_cases hp : r.st.HasPierSide = true
  · cases hg : io.Gm with
    | none =>
      refine ⟨by simp [hp, h1], ?_⟩
      intro c hc
      simp only [hp, if_true, List.mem_append, List.mem_cons, List.mem_singleton,
        List.not_mem_nil, or_false] at hc
      rcases hc with (hc | hc) | hc
      · exact h2 c hc
      · cases hc
        decide
      · cases hc
    | some response =>
      refine ⟨by simp [hp, h1], ?_⟩
      intro c hc
      simp only [hp, if_true, List.mem_append, List.mem_cons, List.mem_singleton,
        List.not_mem_nil, or_false] at hc
      rcases hc with (hc | hc | hc) | hc
      · exact h2 c hc
      · cases hc
        decide
      · cases hc
      · cases hc
  · refine ⟨by simp [hp, h1], ?_⟩
    intro c hc
    simp only [hp, List.mem_append, List.mem_singleton] at hc
    rcases hc with hc | hc
    · exact h2 c hc
    · cases hc

theorem keepsMeridian_motor {α : Type} (st : DriverState α) (io : Mount α) (r r4 : Run α)
    (h : keepsMeridian st r) (hm : motorBlock io r = some r4) : keepsMeridian st r4 := by
  obtain ⟨h1, h2⟩ := h
  unfold motorBlock at hm
  simp only [Option.bind_eq_some] at hm
  obtain ⟨s1, _, s2, _, hr⟩ := hm
  simp only [Option.some.injEq] at hr
  subst hr
  refine ⟨h1, ?_⟩
  intro c hc
  simp only [List.mem_append, List.mem_cons, List.mem_singleton, List.not_mem_nil,
    or_false] at hc
  rcases hc with hc | hc | hc | hc | hc
  · exact h2 c hc
  · cases hc
    decide
  · cases hc
  · cases hc
    decide
  · cases hc

theorem keepsMeridian_tail {α : Type} (st : DriverState α) (io : Mount α) (r : Run α)
    (h : keepsMeridian st r) :
    keepsMeridian st (altAzBlock io (hardLimitBlock io r)).1 := by
  obtain ⟨h1, h2⟩ := h
  have hh : keepsMeridian st (hardLimitBlock io r) := by
    refine ⟨h1, ?_⟩
    intro c hc
    simp only [hardLimitBlock, List.mem_append, List.mem_cons, List.mem_singleton,
      List.not_mem_nil, or_false] at hc
    rcases hc with hc | hc | hc | hc
    · exact h2 c hc
    · cases hc
      decide
    · cases hc
    · cases hc
  obtain ⟨g1, g2⟩ := hh
  unfold altAzBlock
  cases io.Az with
  | none =>
    refine ⟨g1, ?_⟩
    intro c hc
    simp only [List.mem_append, List.mem_singleton] at hc
    rcases hc with hc | hc
    · exact g2 c hc
    · cases hc
  | some az =>
    cases io.Alt with
    | none =>
      refine ⟨g1, ?_⟩
      intro c hc
      simp only [List.mem_append, List.mem_cons, List.mem_singleton, List.not_mem_nil,
        or_false] at hc
      rcases hc with hc | hc | hc
      · exact g2 c hc
      · cases hc
      · cases hc
    | some alt =>
      refine ⟨g1, ?_⟩
      intro c hc
      simp only [List.mem_append, List.mem_cons, List.mem_singleton, List.not_mem_nil,
        or_false] at hc
      rcases hc with hc | hc | hc | hc
      · exact g2 c hc
      · cases hc
      · cases hc
      · cases hc

theorem pollHead_keepsMeridian {α : Type} (st : DriverState α) (io : Mount α) (r : Run α)
    (b : Bool) (h : pollHead st io = some (r, b)) : keepsMeridian st r := by
  unfold pollHead at h
  by_cases hc : st.isConnected = false
  · simp only [hc, if_true, Option.some.injEq, Prod.mk.injEq] at h
    rw [← h.1]
    exact ⟨rfl, by simp⟩
  · rw [if_neg hc] at h
    cases hd : decodeStatus io.GU with
    | none => simp [hd] at h
    | some f =>
      simp only [hd] at h
      have k1 := keepsMeridian_readEq st io _ (keepsMeridian_start st f)
      generalize readEqBlock io (trackStateBlock f (publishFlags f
        { st := st, log := [Event.sendCommand ":GU#"] })) = q at h k1
      obtain ⟨r2, b2⟩ := q
      cases b2 with
      | false =>
        simp only [Option.some.injEq, Prod.mk.injEq] at h
        rw [← h.1]
        exact k1
      | true =>
        simp only at h
        cases hm : motorBlock io (pierBlock io r2) with
        | none => simp [hm] at h
        | some r4 =>
          simp only [hm, Option.some.injEq] at h
          have k2 := keepsMeridian_tail st io r4
            (keepsMeridian_motor st io _ r4 (keepsMeridian_pier st io r2 k1) hm)
          rw [h] at k2
          exact k2

theorem value0_setValueAt {α : Type} (nvp : INumberVectorProperty α) (v w : α)
    (h : value0 nvp = some w) :
    value0 { nvp with np := setValueAt nvp.np 0 v, s := IPState.IPS_OK } = some v := by
  unfold value0 at h ⊢
  cases hnp : nvp.np with
  | nil => simp [hnp] at h
  | cons x xs => simp [setValueAt]

theorem ReadScopeStatus_ret_true {α : Type} (to_string : α → String) (ne : α → α → Bool)
    (st : DriverState α) (io : Mount α) (p : Poll α)
    (h : ReadScopeStatus to_string ne st io = some p) (hret : p.ret = true) :
    ∃ r r7, pollHead st io = some (r, true) ∧ meridianBlock to_string ne io r = some r7 ∧
      p.st = r7.st ∧ p.log = r7.log := by
  unfold ReadScopeStatus at h
  cases hph : pollHead st io with
  | none => simp [hph] at h
  | some q =>
    obtain ⟨r, b⟩ := q
    cases b with
    | false =>
      simp only [hph, Option.some.injEq] at h
      rw [← h] at hret
      cases hret
    | true =>
      simp only [hph, Option.map_eq_some'] at h
      obtain ⟨r7, h7, hp⟩ := h
      exact ⟨r, r7, rfl, h7, by rw [← hp], by rw [← hp]⟩

/-- C17: the minutes-past-meridian block of a poll that runs to its end.  The
steps before it leave `MeridianLimitNP` alone and send queries only.  When the
east and west readings differ, the poll then issues `:SXE9,v#` followed by
`:SXEA,v#`, with `v` the stored limit, and the vector is as before the poll;
when they do not differ, no command is issued, the stored limit is the
reading and the state is Ok; when a reading fails, the state is Alert, the
elements are as before and no command other than a query is issued. -/
theorem ReadScopeStatus_meridian_sync {α : Type} (to_string : α → String)
    (ne : α → α → Bool) (st : DriverState α) (io : Mount α) (p : Poll α)
    (h : ReadScopeStatus to_string ne st io = some p) (hret : p.ret = true) :
    ∃ r, pollHead st io = some (r, true) ∧ keepsMeridian st r ∧
      (∀ east west, io.GXE9 = some east → io.GXEA = some west → ne east west = true →
        ∃ v, value0 st.MeridianLimitNP = some v ∧
          p.log = r.log ++ [Event.getFloat ":GXE9#", Event.getFloat ":GXEA#",
            Event.sendCommand (":SXE9," ++ to_string v ++ "#"),
            Event.sendCommand (":SXEA," ++ to_string v ++ "#"),
            Event.applyNumber (IDSetNumber st.MeridianLimitNP none)] ∧
          p.st.MeridianLimitNP = st.MeridianLimitNP) ∧
      (∀ east west, io.GXE9 = some east → io.GXEA = some west → ne east west = false →
        p.log = r.log ++ [Event.getFloat ":GXE9#", Event.getFloat ":GXEA#",
          Event.applyNumber (IDSetNumber p.st.MeridianLimitNP none)] ∧
        value0 p.st.MeridianLimitNP = some east ∧
        p.st.MeridianLimitNP.s = IPState.IPS_OK) ∧
      (io.GXE9 = none ∨ io.GXEA = none →
        p.st.MeridianLimitNP.s = IPState.IPS_ALERT ∧
        p.st.MeridianLimitNP.np = st.MeridianLimitNP.np ∧
        ∀ c, Event.sendCommand c ∈ p.log → c ∈ queryCommands) := by
  obtain ⟨r, r7, hph, h7, hst, hlog⟩ := ReadScopeStatus_ret_true to_string ne st io p h hret
  have hk := pollHead_keepsMeridian st io r true hph
  obtain ⟨hk1, hk2⟩ := hk
  refine ⟨r, hph, ⟨hk1, hk2⟩, ?_, ?_, ?_⟩
  · intro east west he hw hne
    simp only [meridianBlock, he, hw, hne, if_true, Option.map_eq_some'] at h7
    obtain ⟨v, hv, hr⟩ := h7
    rw [hk1] at hv
    refine ⟨v, hv, ?_, ?_⟩
    · rw [hlog, ← hr, hk1]
    · rw [hst, ← hr]
      exact hk1
  · intro east west he hw hne
    cases hv : value0 r.st.MeridianLimitNP with
    | none => simp [meridianBlock, he, hw, hne, hv] at h7
    | some v =>
      simp only [meridianBlock, he, hw, hne, hv, Option.map_some', Bool.false_eq_true,
        if_false, Option.some.injEq] at h7
      refine ⟨?_, ?_, ?_⟩
      · rw [hlog, hst, ← h7]
      · rw [hst, ← h7]
        exact value0_setValueAt _ east v hv
      · rw [hst, ← h7]
  · intro hfail
    cases he : io.GXE9 with
    | none =>
      simp only [meridianBlock, he, Option.some.injEq] at h7
      refine ⟨by rw [hst, ← h7], by rw [hst, ← h7, ← hk1], ?_⟩
      intro c hc
      rw [hlog, ← h7] at hc
      simp only [List.mem_append, List.mem_cons, List.mem_singleton, List.not_mem_nil,
        or_false] at hc
      rcases hc with hc | hc | hc
      · exact hk2 c hc
      · cases hc
      · cases hc
    | some east =>
      have hw : io.GXEA = none := by
        rcases hfail with h1 | h1
        · rw [he] at h1
          cases h1
        · exact h1
      simp only [meridianBlock, he, hw, Option.some.injEq] at h7
      refine ⟨by rw [hst, ← h7], by rw [hst, ← h7, ← hk1], ?_⟩
      intro c hc
      rw [hlog, ← h7] at hc
      simp only [List.mem_append, List.mem_cons, List.mem_singleton, List.not_mem_nil,
        or_false] at hc
      rcases hc with hc | hc | hc | hc
      · exact hk2 c hc
      · cases hc
      · cases hc
      · cases hc

/-- Witness for C16: the DEC read fails after a slew-complete report. -/
theorem ReadScopeStatus_coordinate_read_failure_witness :
    ∃ p, ReadScopeStatus (fun _ : Int => "") (fun a b => decide (a ≠ b)) sampleDriver
        { sampleMount true with DEC := none } = some p ∧ p.ret = false ∧
      p.st.EqNP_s = IPState.IPS_ALERT ∧
      p.st.TrackState = TelescopeStatus.SCOPE_TRACKING :=
  have h := ReadScopeStatus_coordinate_read_failure (fun _ : Int => "")
    (fun a b => decide (a ≠ b)) sampleDriver { sampleMount true with DEC := none }
    { initialFlags with _IsSlewCompleted := true } rfl (by decide) (Or.inr rfl)
  h.imp fun _ hp => ⟨hp.1, hp.2.1, hp.2.2.1, hp.2.2.2.1.trans (by decide)⟩

/-- Witness for C17: readings 5 and 7 with the stored limit 0. -/
theorem ReadScopeStatus_meridian_sync_witness :
    ∃ (p : Poll Int) (r : Run Int),
      ReadScopeStatus (fun _ : Int => "0.000000") (fun a b => decide (a ≠ b))
        sampleDriver (sampleMount true) = some p ∧
      p.log = r.log ++ [Event.getFloat ":GXE9#", Event.getFloat ":GXEA#",
        Event.sendCommand (":SXE9," ++ "0.000000" ++ "#"),
        Event.sendCommand (":SXEA," ++ "0.000000" ++ "#"),
        Event.applyNumber (IDSetNumber sampleDriver.MeridianLimitNP none)] ∧
      p.st.MeridianLimitNP = sampleDriver.MeridianLimitNP := by
  have hs : (ReadScopeStatus (fun _ : Int => "0.000000") (fun a b => decide (a ≠ b))
      sampleDriver (sampleMount true)).isSome = true := by decide
  obtain ⟨p, hp⟩ := Option.isSome_iff_exists.mp hs
  have hret : p.ret = true := by
    have hm : (ReadScopeStatus (fun _ : Int => "0.000000") (fun a b => decide (a ≠ b))
        sampleDriver (sampleMount true)).map (fun q => q.ret) = some true := by decide
    rw [hp] at hm
    exact Option.some.inj hm
  obtain ⟨r, _, _, h1, _, _⟩ := ReadScopeStatus_meridian_sync _ _ _ _ p hp hret
  obtain ⟨v, _, hlog, hst⟩ := h1 5 7 rfl rfl (by decide)
  exact ⟨p, r, hp, hlog, hst⟩

/-! ### The `MERIDIAN_LIMIT` block of `ISNewNumber` -/

/-- The group state and the record emitted by the `MERIDIAN_LIMIT` block outside
simulation are those `IUUpdateNumber` leaves: the results of the two writes do
not enter. -/
theorem ISNewNumber_MeridianLimit_state {α : Type} [LT α]
    [DecidableRel (fun a b : α => a < b)] (to_string g : α → String)
    (st : DriverState α) (io : Mount α) (req : List (String × α)) (r : Run α)
    (h : ISNewNumber_MeridianLimit to_string g false st io req = some r) :
    r.st.MeridianLimitNP = (IUUpdateNumber g st.MeridianLimitNP req).vec ∧
    r.log.getLast? = some (Event.applyNumber
      (IDSetNumber (IUUpdateNumber g st.MeridianLimitNP req).vec none)) := by
  simp only [ISNewNumber_MeridianLimit, if_true, Option.map_eq_some'] at h
  obtain ⟨v, _, hr⟩ := h
  rw [← hr]
  refine ⟨rfl, ?_⟩
  simp [List.getLast?_append, List.getLast?_cons_cons]

/-- C18 (failing input): with both writes failing, a request that sets the
limit to 10 on a vector in state Ok issues the two commands and emits the
vector with state Ok, not Alert; with both writes succeeding on a vector in
state Idle it emits the vector with state Idle, not Ok. -/
theorem ISNewNumber_MeridianLimit_write_failure_unreported :
    (ISNewNumber_MeridianLimit (fun _ : Int => "10.000000") (fun _ => "") false sampleDriver
        (sampleMount false) [("VALUE", 10)]).map (fun r => r.log) =
      some [Event.sendCommand ":SXE9,10.000000#", Event.sendCommand ":SXEA,10.000000#",
        Event.applyNumber (IDSetNumber (sampleMeridian 10 IPState.IPS_OK) none)] ∧
    (ISNewNumber_MeridianLimit (fun _ : Int => "10.000000") (fun _ => "") false
        { sampleDriver with MeridianLimitNP := sampleMeridian 0 IPState.IPS_IDLE }
        (sampleMount true) [("VALUE", 10)]).map (fun r => r.log) =
      some [Event.sendCommand ":SXE9,10.000000#", Event.sendCommand ":SXEA,10.000000#",
        Event.applyNumber (IDSetNumber (sampleMeridian 10 IPState.IPS_IDLE) none)] := by
  decide

/-! ### Mount type, parked stability, rejected requests -/

/-- C22 (failing input): for the type AltAz `setMountType` sends "::SXEM,3#",
with two colons, which is not the command ":SXEM,3#"; for Equatorial it sends
":SXEM,1#", and in both cases it returns the result of the write. -/
theorem setMountType_AltAz_command :
    (setMountType (sampleMount true) MountType.AltAz).2 =
      [Event.sendCommand "::SXEM,3#"] ∧
    "::SXEM,3#" ≠ ":SXEM,3#" ∧
    (setMountType (sampleMount true) MountType.Equatorial).2 =
      [Event.sendCommand ":SXEM,1#"] ∧
    (setMountType (sampleMount true) MountType.AltAz).1 = true ∧
    (setMountType (sampleMount false) MountType.AltAz).1 = false := by
  decide

/-- C25 (counterexample): a poll that starts in state Parked with a snapshot
reporting parked and tracking while the tracking switch is OFF ends in state
Tracking; with a snapshot reporting parked and not tracking while the switch
is ON it ends in state Idle. -/
theorem trackStateStep_parked_not_stable :
    (decodeStatus (some "P#".data)).map
        (fun f => trackStateStep TelescopeStatus.SCOPE_PARKED ISState.ISS_OFF f) =
      some TelescopeStatus.SCOPE_TRACKING ∧
    (decodeStatus (some "nP#".data)).map
        (fun f => trackStateStep TelescopeStatus.SCOPE_PARKED ISState.ISS_ON f) =
      some TelescopeStatus.SCOPE_IDLE := by
  decide

/-- C25 (amended): a poll that starts in state Parked leaves the state Parked
whenever the snapshot's tracking flag agrees with "the tracking switch is ON",
whatever the snapshot's other flags are, so in particular with a snapshot
reporting parked. -/
theorem trackStateStep_parked_stable (sw : ISState) (f : StatusFlags)
    (hagree : decide (sw = ISState.ISS_ON) = f._IsTracking) :
    trackStateStep TelescopeStatus.SCOPE_PARKED sw f = TelescopeStatus.SCOPE_PARKED := by
  simp [trackStateStep, hagree]

/-- Witness for C25 (amended): parked, not tracking, switch OFF. -/
theorem trackStateStep_parked_stable_witness :
    trackStateStep TelescopeStatus.SCOPE_PARKED ISState.ISS_OFF
      { initialFlags with _IsParked := true, _IsTracking := false } =
      TelescopeStatus.SCOPE_PARKED :=
  trackStateStep_parked_stable _ _ (by decide)

/-- C28 (failing input): a `MERIDIAN_LIMIT` request with the value 500, outside
the range from -120 to 120, is rejected by the update (one record with state
Alert is written and the stored limit stays 0), and the block still sends
`:SXE9` and `:SXEA`, with the stored limit; so it does for a request that
names an unknown element. -/
theorem ISNewNumber_MeridianLimit_rejected_still_writes :
    (IUUpdateNumber (fun _ => "") sampleDriver.MeridianLimitNP [("VALUE", 500)]).rc = -1 ∧
    (ISNewNumber_MeridianLimit (fun _ : Int => "0.000000") (fun _ => "") false sampleDriver
        (sampleMount true) [("VALUE", 500)]).map
        (fun r => (value0 r.st.MeridianLimitNP,
          r.log.filter (fun e => decide (e = Event.sendCommand ":SXE9,0.000000#" ∨
            e = Event.sendCommand ":SXEA,0.000000#")))) =
      some (some 0, [Event.sendCommand ":SXE9,0.000000#",
        Event.sendCommand ":SXEA,0.000000#"]) ∧
    (IUUpdateNumber (fun _ => "") sampleDriver.MeridianLimitNP [("LIMIT", 10)]).rc = -1 ∧
    (ISNewNumber_MeridianLimit (fun _ : Int => "0.000000") (fun _ => "") false sampleDriver
        (sampleMount true) [("LIMIT", 10)]).map
        (fun r => (value0 r.st.MeridianLimitNP,
          r.log.filter (fun e => decide (e = Event.sendCommand ":SXE9,0.000000#" ∨
            e = Event.sendCommand ":SXEA,0.000000#")))) =
      some (some 0, [Event.sendCommand ":SXE9,0.000000#",
        Event.sendCommand ":SXEA,0.000000#"]) := by
  decide

/-! ### Order of the scanned characters and the detection at connect time -/

theorem scanChar_IsTracking (c : Char) (f : StatusFlags) :
    (scanChar c f)._IsTracking =
      if c = 'n' then false else f._IsTracking := by
  unfold scanChar
  simp only [apply_ite StatusFlags._IsTracking, ite_self]

theorem scanChar_DoesRefractionComp (c : Char) (f : StatusFlags) :
    (scanChar c f)._DoesRefractionComp =
      if c = 'r' then true else f._DoesRefractionComp := by
  unfold scanChar
  simp only [apply_ite StatusFlags._DoesRefractionComp, ite_self]
  by_cases h0 : c = 'n'
  · subst h0
    rfl
  by_cases h1 : c = 'N'
  · subst h1
    rfl
  by_cases h2 : c = 'p'
  · subst h2
    rfl
  by_cases h3 : c = 'P'
  · subst h3
    rfl
  by_cases h4 : c = 'I'
  · subst h4
    rfl
  by_cases h5 : c = 'H'
  · subst h5
    rfl
  by_cases h6 : c = '('
  · subst h6
    rfl
  by_cases h7 : c = 'O'
  · subst h7
    rfl
  by_cases h8 : c = 'k'
  · subst h8
    rfl
  by_cases h9 : c = 'A'
  · subst h9
    rfl
  by_cases h10 : c = 'E'
  · subst h10
    rfl
  by_cases h11 : c = 'T'
  · subst h11
    rfl
  by_cases h12 : c = 'W'
  · subst h12
    rfl
  simp only [if_neg h0, if_neg h1, if_neg h2, if_neg h3, if_neg h4, if_neg h5, if_neg h6, if_neg h7, if_neg h8, if_neg h9, if_neg h10, if_neg h11, if_neg h12]

theorem scanChar_PierSide (c : Char) (f : StatusFlags) :
    (scanChar c f)._PierSide =
      if c = 'T' then TelescopePierSide.PIER_EAST
      else if c = 'W' then TelescopePierSide.PIER_WEST else f._PierSide := by
  unfold scanChar
  simp only [apply_ite StatusFlags._PierSide, ite_self]
  by_cases h0 : c = 'n'
  · subst h0
    rfl
  by_cases h1 : c = 'N'
  · subst h1
    rfl
  by_cases h2 : c = 'p'
  · subst h2
    rfl
  by_cases h3 : c = 'P'
  · subst h3
    rfl
  by_cases h4 : c = 'I'
  · subst h4
    rfl
  by_cases h5 : c = 'H'
  · subst h5
    rfl
  by_cases h6 : c = '('
  · subst h6
    rfl
  by_cases h7 : c = 'O'
  · subst h7
    rfl
  by_cases h8 : c = 'k'
  · subst h8
    rfl
  by_cases h9 : c = 'A'
  · subst h9
    rfl
  by_cases h10 : c = 'E'
  · subst h10
    rfl
  simp only [if_neg h0, if_neg h1, if_neg h2, if_neg h3, if_neg h4, if_neg h5, if_neg h6, if_neg h7, if_neg h8, if_neg h9, if_neg h10]

theorem scanChar_TrackingMode (c : Char) (f : StatusFlags) :
    (scanChar c f)._TrackingMode =
      if c = '(' then NYXTelescopeTrackMode.TRACK_LUNAR
      else if c = 'O' then NYXTelescopeTrackMode.TRACK_SOLAR
      else if c = 'k' then NYXTelescopeTrackMode.TRACK_KING else f._TrackingMode := by
  unfold scanChar
  simp only [apply_ite StatusFlags._TrackingMode, ite_self]
  by_cases h0 : c = 'n'
  · subst h0
    rfl
  by_cases h1 : c = 'N'
  · subst h1
    rfl
  by_cases h2 : c = 'p'
  · subst h2
    rfl
  by_cases h3 : c = 'P'
  · subst h3
    rfl
  by_cases h4 : c = 'I'
  · subst h4
    rfl
  by_cases h5 : c = 'H'
  · subst h5
    rfl
  simp only [if_neg h0, if_neg h1, if_neg h2, if_neg h3, if_neg h4, if_neg h5]

theorem ite_comm_one {β : Type} (A C : Prop) [Decidable A] [Decidable C] (w v : β) :
    (if C then w else (if A then w else v)) = (if A then w else (if C then w else v)) := by
  by_cases hA : A <;> by_cases hC : C <;> simp [hA, hC]

theorem ite_comm_two {β : Type} (A B C D : Prop) [Decidable A] [Decidable B] [Decidable C]
    [Decidable D] (w1 w2 v : β) (h1 : ¬ (A ∧ D)) (h2 : ¬ (B ∧ C)) :
    (if C then w1 else if D then w2 else (if A then w1 else if B then w2 else v)) =
      (if A then w1 else if B then w2 else (if C then w1 else if D then w2 else v)) := by
  by_cases hA : A <;> by_cases hB : B <;> by_cases hC : C <;> by_cases hD : D <;>
    simp_all

theorem ite_comm_three {β : Type} (A1 A2 A3 C1 C2 C3 : Prop) [Decidable A1] [Decidable A2]
    [Decidable A3] [Decidable C1] [Decidable C2] [Decidable C3] (w1 w2 w3 v : β)
    (h12 : ¬ (A1 ∧ C2)) (h13 : ¬ (A1 ∧ C3)) (h21 : ¬ (A2 ∧ C1)) (h23 : ¬ (A2 ∧ C3))
    (h31 : ¬ (A3 ∧ C1)) (h32 : ¬ (A3 ∧ C2)) :
    (if C1 then w1 else if C2 then w2 else if C3 then w3
      else (if A1 then w1 else if A2 then w2 else if A3 then w3 else v)) =
      (if A1 then w1 else if A2 then w2 else if A3 then w3
        else (if C1 then w1 else if C2 then w2 else if C3 then w3 else v)) := by
  by_cases hA1 : A1 <;> by_cases hA2 : A2 <;> by_cases hA3 : A3 <;> by_cases hC1 : C1 <;>
    by_cases hC2 : C2 <;> by_cases hC3 : C3 <;> simp_all

theorem StatusFlags_eq (f g : StatusFlags) (h1 : f._IsTracking = g._IsTracking)
    (h2 : f._IsSlewCompleted = g._IsSlewCompleted) (h3 : f._IsParked = g._IsParked)
    (h4 : f._DoesRefractionComp = g._DoesRefractionComp) (h5 : f._PierSide = g._PierSide)
    (h6 : f._TrackingMode = g._TrackingMode) : f = g := by
  cases f
  cases g
  simp only at h1 h2 h3 h4 h5 h6
  subst h1 h2 h3 h4 h5 h6
  rfl

/-- Two steps of the scan commute unless the two characters write the same
local with different values. -/
theorem scanChar_comm (x y : Char) (f : StatusFlags)
    (hpP : ¬ (x = 'p' ∧ y = 'P')) (hPp : ¬ (x = 'P' ∧ y = 'p'))
    (hTW : ¬ (x = 'T' ∧ y = 'W')) (hWT : ¬ (x = 'W' ∧ y = 'T'))
    (h12 : ¬ (x = '(' ∧ y = 'O')) (h13 : ¬ (x = '(' ∧ y = 'k'))
    (h21 : ¬ (x = 'O' ∧ y = '(')) (h23 : ¬ (x = 'O' ∧ y = 'k'))
    (h31 : ¬ (x = 'k' ∧ y = '(')) (h32 : ¬ (x = 'k' ∧ y = 'O')) :
    scanChar y (scanChar x f) = scanChar x (scanChar y f) := by
  apply StatusFlags_eq
  · simp only [scanChar_IsTracking]
    exact ite_comm_one _ _ _ _
  · simp only [scanChar_IsSlewCompleted]
    exact ite_comm_one _ _ _ _
  · simp only [scanChar_IsParked]
    exact ite_comm_two _ _ _ _ _ _ _ hpP hPp
  · simp only [scanChar_DoesRefractionComp]
    exact ite_comm_one _ _ _ _
  · simp only [scanChar_PierSide]
    exact ite_comm_two _ _ _ _ _ _ _ hTW hWT
  · simp only [scanChar_TrackingMode]
    exact ite_comm_three _ _ _ _ _ _ _ _ _ _ h12 h13 h21 h23 h31 h32

theorem noConflict_pair (a : List Char) (hc : noConflict a) (x y : Char) (hx : x ∈ a)
    (hy : y ∈ a) :
    ¬ (x = 'p' ∧ y = 'P') ∧ ¬ (x = 'P' ∧ y = 'p') ∧ ¬ (x = 'T' ∧ y = 'W') ∧
    ¬ (x = 'W' ∧ y = 'T') ∧ ¬ (x = '(' ∧ y = 'O') ∧ ¬ (x = '(' ∧ y = 'k') ∧
    ¬ (x = 'O' ∧ y = '(') ∧ ¬ (x = 'O' ∧ y = 'k') ∧ ¬ (x = 'k' ∧ y = '(') ∧
    ¬ (x = 'k' ∧ y = 'O') := by
  obtain ⟨c1, c2, c3, c4, c5⟩ := hc
  refine ⟨?_, ?_, ?_, ?_, ?_, ?_, ?_, ?_, ?_, ?_⟩
  · rintro ⟨h1, h2⟩
    exact c1 ⟨h1 ▸ hx, h2 ▸ hy⟩
  · rintro ⟨h1, h2⟩
    exact c1 ⟨h2 ▸ hy, h1 ▸ hx⟩
  · rintro ⟨h1, h2⟩
    exact c2 ⟨h1 ▸ hx, h2 ▸ hy⟩
  · rintro ⟨h1, h2⟩
    exact c2 ⟨h2 ▸ hy, h1 ▸ hx⟩
  · rintro ⟨h1, h2⟩
    exact c3 ⟨h1 ▸ hx, h2 ▸ hy⟩
  · rintro ⟨h1, h2⟩
    exact c4 ⟨h1 ▸ hx, h2 ▸ hy⟩
  · rintro ⟨h1, h2⟩
    exact c3 ⟨h2 ▸ hy, h1 ▸ hx⟩
  · rintro ⟨h1, h2⟩
    exact c5 ⟨h1 ▸ hx, h2 ▸ hy⟩
  · rintro ⟨h1, h2⟩
    exact c4 ⟨h2 ▸ hy, h1 ▸ hx⟩
  · rintro ⟨h1, h2⟩
    exact c5 ⟨h2 ▸ hy, h1 ▸ hx⟩

/-- C23 (counterexample): "pP#" and "Pp#", "TW#" and "WT#", "(O#" and "O(#"
are permutations of each other before the terminator and decode to different
snapshots. -/
theorem decodeStatus_order_matters :
    decodeStatus (some "pP#".data) ≠ decodeStatus (some "Pp#".data) ∧
    decodeStatus (some "TW#".data) ≠ decodeStatus (some "WT#".data) ∧
    decodeStatus (some "(O#".data) ≠ decodeStatus (some "O(#".data) := by
  decide

/-- C23 (amended): for a status array `a ++ # ++ b` in which `a` holds no two
different characters that write the same local (not both p and P, not both T
and W, no two of the tracking-mode characters), every permutation of `a`
followed by the terminator decodes to the same snapshot. -/
theorem decodeStatus_perm (a a2 b b2 : List Char) (hperm : a.Perm a2) (ha : '#' ∉ a)
    (hc : noConflict a) :
    decodeStatus (some (a2 ++ '#' :: b2)) = decodeStatus (some (a ++ '#' :: b)) := by
  have ha2 : '#' ∉ a2 := fun h => ha (hperm.mem_iff.mpr h)
  rw [decodeStatus_terminated a b ha, decodeStatus_terminated a2 b2 ha2]
  congr 1
  symm
  apply List.Perm.foldl_eq' hperm
  intro x hx y hy z
  obtain ⟨h1, h2, h3, h4, h5, h6, h7, h8, h9, h10⟩ := noConflict_pair a hc x y hx hy
  exact scanChar_comm x y z h1 h2 h3 h4 h5 h6 h7 h8 h9 h10

/-- Witness for C23 (amended): "nNPr#" and "rPNn#". -/
theorem decodeStatus_perm_witness :
    decodeStatus (some ("rPNn".data ++ '#' :: [])) =
      decodeStatus (some ("nNPr".data ++ '#' :: [])) :=
  decodeStatus_perm "nNPr".data "rPNn".data [] [] (by decide) (by decide)
    (by unfold noConflict; decide)

theorem foldl_IsParked (a : List Char) (f : StatusFlags) (hc : ¬ ('p' ∈ a ∧ 'P' ∈ a)) :
    (a.foldl (fun g c => scanChar c g) f)._IsParked =
      if 'P' ∈ a then true else if 'p' ∈ a then false else f._IsParked := by
  induction a generalizing f with
  | nil => simp
  | cons c cs ih =>
    have hcs : ¬ ('p' ∈ cs ∧ 'P' ∈ cs) :=
      fun h => hc ⟨List.mem_cons_of_mem _ h.1, List.mem_cons_of_mem _ h.2⟩
    simp only [List.foldl_cons]
    rw [ih _ hcs, scanChar_IsParked]
    have hne : ¬ ('P' = 'p') := by decide
    by_cases hP : 'P' ∈ cs
    · simp [hP]
    · by_cases hp : 'p' ∈ cs
      · have hcP : ¬ 'P' = c := fun e => hc ⟨List.mem_cons_of_mem _ hp, e ▸ List.mem_cons_self _ _⟩
        simp [hP, hp, hcP]
      · by_cases hcp : c = 'p'
        · subst hcp
          simp [hP, hp, hne]
        · by_cases hcP : c = 'P'
          · subst hcP
            simp [hP, hp]
          · have e1 : ¬ 'P' = c := fun e => hcP e.symm
            have e2 : ¬ 'p' = c := fun e => hcp e.symm
            simp [hP, hp, hcp, hcP, e1, e2]

end LX200NYX101
